import Mathlib

/-!
# User-level threads library: scheduler model

A shallow embedding of `src/uthreads.cpp` and `src/Thread.h`.

* The global library variables become the fields of `State`, together with
  two fields that are no variables of the library: `pc` says where the running
  thread stands when it is inside the part of `uthread_terminate` that runs
  with `SIGVTALRM` unblocked, and `erased` records the map entries destroyed so
  far, to tell a live iterator from a dangling one.
* `unsigned int` counters are natural numbers reduced modulo `2 ^ 32`; the
  `(int)` casts of the getters are `toInt32`.
* `MAX_THREAD_NUM` comes from `uthreads.h`, which is not part of the sources at
  hand; every definition that uses it takes it as a parameter.
* `sigsetjmp` / `siglongjmp`: a saved `env[i]` is represented by the code that
  runs when a jump lands in it (`Cont`): the rest of the library routine in
  which thread `i` called `_switch_threads`, or the entry point of a thread
  that never ran. A call that reaches the `siglongjmp` of `_switch_threads`
  does not return to its caller; what is left of it runs when, and only when,
  a later switch pops the caller from the ready queue.
* Signal mask: `_block()` and `_unblock()` do not nest. `uthread_resume` ends
  with `_unblock()`, so after the first `uthread_resume` of its release loop
  (line 317) the rest of `uthread_terminate` (lines 314-323) runs with the
  timer signal deliverable between any two statements. Those statements are
  separate `Event.advance` steps, and `Event.timer` may come between them.
  Every other library routine runs masked from `_block()` to its return or to
  the `siglongjmp`, and is one step.
* Operating system: `setitimer` fails exactly when `tv_usec` is outside
  `0 .. 999999`; the other system calls are taken to succeed.
* Undefined behaviour (null dereference, out-of-bounds index, `front()` of an
  empty deque, jump into a buffer that was never filled, use of an iterator of
  a destroyed set, flowing off the end of a value-returning function) is the
  result `Res.undefined`. `Res.exited` stands for `exit`; every `exit` of the
  library comes after a call of `_terminate_all`, whose behaviour is undefined,
  so no routine below produces it.
-/

namespace Uthreads

/-! ## Machine integers -/

/-- The `++` of an `unsigned int`. -/
def inc32 (n : Nat) : Nat := (n + 1) % 2 ^ 32

/-- The `--` of an `unsigned int`. -/
def dec32 (n : Nat) : Nat := (n + 2 ^ 32 - 1) % 2 ^ 32

/-- The cast `(int)` of an `unsigned int`. -/
def toInt32 (n : Nat) : Int :=
  if n % 2 ^ 32 < 2 ^ 31 then ((n % 2 ^ 32 : Nat) : Int) else ((n % 2 ^ 32 : Nat) : Int) - 2 ^ 32

/-! ## Thread control block (`Thread.h`) -/

/-- The state strings "READY", "RUNNING" and "BLOCKED" stored in a `Thread`. -/
inductive TState where
  | READY
  | RUNNING
  | BLOCKED
deriving DecidableEq

/-- The argument strings of `_switch_threads`. -/
inductive NextState where
  | READY
  | BLOCKED
  | TERMINATED
deriving DecidableEq

/-- The data members of class `Thread` (entry point and stack left out). -/
structure Thread where
  _tid : Nat
  _state : TState
  _quantums_num : Nat
  _is_synced : Bool
deriving DecidableEq

/-- The constructor `Thread(_state, _tid, f)`. -/
def Thread.new (st : TState) (tid : Nat) : Thread :=
  { _tid := tid, _state := st, _quantums_num := 0, _is_synced := false }

/-- The method `Thread::setState`. -/
def Thread.setState (t : Thread) (st : TState) : Thread := { t with _state := st }

/-- The method `Thread::raise_quantums`. -/
def Thread.raise_quantums (t : Thread) : Thread :=
  { t with _quantums_num := inc32 t._quantums_num }

/-- The method `Thread::switch_sync_state`. -/
def Thread.switch_sync_state (t : Thread) : Thread := { t with _is_synced := !t._is_synced }

/-! ## Saved contexts -/

/-- The statement of `uthread_terminate` a thread is about to execute, once the
first `uthread_resume` of the release loop has unblocked the timer signal. The
loop `for (auto thread_id : dependencies_dict[tid])` is an iterator walk over
the set; `w` is the element the iterator points to. -/
inductive TailPc where
  /-- The body for `w` is done; next is `++it` and the test against `end()`. -/
  | at_incr (w : Nat)
  /-- Next is line 316, `thread_list[w]->switch_sync_state()`. -/
  | at_toggle (w : Nat)
  /-- Next is line 317, `uthread_resume(w)`. -/
  | at_resume (w : Nat)
  /-- The loop is over; next is line 319, `dependencies_dict.erase(tid)`. -/
  | at_erase
  /-- Next are lines 321-322, `delete thread_list[tid]; thread_list[tid] = nullptr`. -/
  | at_delete
  /-- Next is line 323, `active_threads_num--`, then the return. -/
  | at_decrement
deriving DecidableEq

/-- A point inside the unmasked part of the call `uthread_terminate(tid)`.
`gen` identifies the set the loop of that call walks: it is the number of
entries for `tid` that `dependencies_dict.erase` had destroyed when the loop
began. -/
structure Tail where
  tid : Int
  gen : Nat
  pc : TailPc
deriving DecidableEq

/-- What runs when `siglongjmp(env[i], 1)` lands in the buffer `env[i]`. -/
inductive Cont where
  /-- The zero-initialised buffer no `sigsetjmp` has filled. -/
  | unset
  /-- Built by `uthread_spawn`: the thread starts at its entry point. -/
  | entry
  /-- Saved inside `_timer_handler`, which interrupted the thread outside the
  library: `_unblock()` and back to the thread. -/
  | in_timer_handler
  /-- Saved inside `_timer_handler`, which interrupted the thread at the point
  `tl` of `uthread_terminate`: `_unblock()` and back to that point. -/
  | in_timer_handler_from (tl : Tail)
  /-- Saved inside `uthread_block`: `_unblock(); return EXIT_SUCCESS`. -/
  | in_block
  /-- Saved inside `uthread_terminate(tid)`: lines 312-325 remain. -/
  | in_terminate (tid : Int)
  /-- Saved inside `uthread_sync(tid)`: lines 387-390 remain. -/
  | in_sync (tid : Int) (current_thread : Nat)
deriving DecidableEq

/-! ## Global library variables -/

/-- The global variables of `uthreads.cpp`. `dependencies_dict` is the
`std::map` of `std::set`s, both kept as lists in ascending key order. The last
two fields are not variables of the library. `pc` is `none` while the running
thread is outside the library, and the point it has reached while it is inside
the unmasked part of `uthread_terminate`. `erased` lists the keys whose entry
`dependencies_dict.erase` has destroyed so far, latest first; it tells whether
the set an iterator was taken from still exists. -/
structure State where
  thread_list : List (Option Thread)
  ready_threads_id : List Nat
  active_threads_num : Nat
  running_thread : Nat
  quantums_num : Nat
  quantum_usec : Int
  dependencies_dict : List (Nat × List Nat)
  env : List Cont
  pc : Option Tail
  erased : List Nat
deriving DecidableEq

/-- The library state at program start, before any call. -/
def State.initial (MAX_THREAD_NUM : Nat) : State :=
  { thread_list := List.replicate MAX_THREAD_NUM none
    ready_threads_id := []
    active_threads_num := 0
    running_thread := 0
    quantums_num := 0
    quantum_usec := 0
    dependencies_dict := []
    env := List.replicate MAX_THREAD_NUM Cont.unset
    pc := none
    erased := [] }

/-- The object `*thread_list[i]`; `none` when the index is out of bounds or the
pointer is null, where the dereference is undefined. -/
def State.deref (s : State) (i : Nat) : Option Thread := s.thread_list[i]?.join

/-- Apply a `Thread` method through `thread_list[i]->`. -/
def State.modifyThread (s : State) (i : Nat) (f : Thread → Thread) : Option State :=
  match s.deref i with
  | none => none
  | some t => some { s with thread_list := s.thread_list.set i (some (f t)) }

/-! ## The dependency map -/

/-- The call `std::set::insert`. -/
def set_insert (x : Nat) : List Nat → List Nat
  | [] => [x]
  | y :: ys => if x < y then x :: y :: ys else if x = y then y :: ys else y :: set_insert x ys

/-- The call `dependencies_dict.find(k)`, as the mapped set when present. -/
def dict_find (d : List (Nat × List Nat)) (k : Nat) : Option (List Nat) :=
  (d.find? (fun e => e.1 == k)).map Prod.snd

/-- The statement `dependencies_dict[k].insert(x)`. -/
def dict_insert (k x : Nat) : List (Nat × List Nat) → List (Nat × List Nat)
  | [] => [(k, [x])]
  | e :: es =>
    if k < e.1 then (k, [x]) :: e :: es
    else if k = e.1 then (e.1, set_insert x e.2) :: es
    else e :: dict_insert k x es

/-- The call `dependencies_dict.erase(k)`. -/
def dict_erase (d : List (Nat × List Nat)) (k : Nat) : List (Nat × List Nat) :=
  d.filter (fun e => !(e.1 == k))

/-! ## Results of a library call -/

/-- How a step of a library routine ends. -/
inductive Res where
  /-- The routine returned `v` to its caller without a context switch. -/
  | returned (s : State) (v : Int)
  /-- The routine went through the `siglongjmp` of `_switch_threads`; `s` is
  the state once the thread jumped to has left the library, or has reached the
  unmasked part of its own `uthread_terminate` call (then `s.pc` says where). -/
  | switched (s : State)
  /-- The routine has unblocked the timer signal and has statements left;
  `s.pc` says where it stands. -/
  | preemptible (s : State)
  /-- The process exited. -/
  | exited
  /-- Undefined behaviour. -/
  | undefined
deriving DecidableEq

/-- The state a step leaves behind, when the process goes on. -/
def Res.state? : Res → Option State
  | .returned s _ => some s
  | .switched s => some s
  | .preemptible s => some s
  | .exited => none
  | .undefined => none

/-- The value a call hands back to its caller, when it returns directly. -/
def Res.value? : Res → Option Int
  | .returned _ v => some v
  | _ => none

/-! ## Private helper methods -/

/-- The function `_terminate_all` (lines 79-85). Its loop deletes every thread
and clears every slot; control then flows off the end of a function declared to
return `int`, which is undefined behaviour, so nothing after the call is
reached. -/
def _terminate_all (s : State) : Res :=
  let _cleared : State := { s with thread_list := s.thread_list.map (fun _ => none) }
  Res.undefined

/-- The function `_start_timer` (lines 139-154): `tv_sec = 0` and
`tv_usec = quantum_usec` for both fields of the timer. On success it returns
(value 0 stands for the plain return of a `void` function); when `setitimer`
fails it calls `_terminate_all()` before `exit(EXIT_FAILURE)`. -/
def _start_timer (s : State) : Res :=
  if 0 ≤ s.quantum_usec ∧ s.quantum_usec ≤ 999999 then .returned s 0
  else _terminate_all s

/-- The function `_is_id_valid`; `none` when `thread_list[tid]` is read out of
bounds. -/
def _is_id_valid (MAX_THREAD_NUM : Nat) (s : State) (tid : Int) : Option Bool :=
  if tid > (MAX_THREAD_NUM : Int) - 1 ∨ tid < 0 then some false
  else
    match s.thread_list[tid.toNat]? with
    | none => none
    | some none => some false
    | some (some _) => some true

/-- The function `uthread_resume`. -/
def uthread_resume (MAX_THREAD_NUM : Nat) (s : State) (tid : Int) : Res :=
  match _is_id_valid MAX_THREAD_NUM s tid with
  | none => .undefined
  | some false => .returned s (-1)
  | some true =>
    match s.deref tid.toNat with
    | none => .undefined
    | some t =>
      if t._state = TState.BLOCKED ∧ t._is_synced = false then
        .returned
          { s with
            thread_list := s.thread_list.set tid.toNat (some (t.setState TState.READY))
            ready_threads_id := s.ready_threads_id ++ [tid.toNat] } 0
      else .returned s 0

/-! ### The statements of `uthread_terminate` after its switch (lines 312-323) -/

/-- Line 316: `thread_list[thread_id]->switch_sync_state()`. -/
def stmt_toggle (s : State) (w : Nat) : Option State :=
  s.modifyThread w Thread.switch_sync_state

/-- Line 317: `uthread_resume(thread_id)`, whose value is dropped. The call
blocks the timer signal on entry and unblocks it before it returns. -/
def stmt_resume (MAX_THREAD_NUM : Nat) (s : State) (w : Nat) : Option State :=
  match uthread_resume MAX_THREAD_NUM s (toInt32 w) with
  | .returned s1 _ => some s1
  | _ => none

/-- Line 319: `dependencies_dict.erase((unsigned int)tid)`. When there is an
entry, its set is destroyed, which is recorded in `erased`. -/
def stmt_erase (s : State) (tid : Int) : State :=
  { s with
    dependencies_dict := dict_erase s.dependencies_dict tid.toNat
    erased :=
      match dict_find s.dependencies_dict tid.toNat with
      | none => s.erased
      | some _ => tid.toNat :: s.erased }

/-- Lines 321-322: `delete thread_list[tid]; thread_list[tid] = nullptr`. -/
def stmt_delete (s : State) (tid : Int) : Option State :=
  if tid.toNat < s.thread_list.length then
    some { s with thread_list := s.thread_list.set tid.toNat none }
  else none

/-- Line 323: `active_threads_num--`. -/
def stmt_decrement (s : State) : State :=
  { s with active_threads_num := dec32 s.active_threads_num }

/-- Lines 312-323 of `uthread_terminate(tid)` as far as they run with the timer
signal blocked. Without an entry for `tid` in the map that is all of them, and
the call is over (`none` as the point reached). With an entry, the first
iteration of the loop ends in `uthread_resume`, which unblocks the signal: the
call stands at `at_incr w` for the first waiter `w`. -/
def terminate_front (MAX_THREAD_NUM : Nat) (s : State) (tid : Int) :
    Option (State × Option TailPc) :=
  match dict_find s.dependencies_dict tid.toNat with
  | none =>
    match stmt_delete s tid with
    | none => none
    | some s1 => some (stmt_decrement s1, none)
  | some [] =>
    match stmt_delete (stmt_erase s tid) tid with
    | none => none
    | some s1 => some (stmt_decrement s1, none)
  | some (w :: _) =>
    match stmt_toggle s w with
    | none => none
    | some s1 =>
      match stmt_resume MAX_THREAD_NUM s1 w with
      | none => none
      | some s2 => some (s2, some (TailPc.at_incr w))

/-- One statement of the unmasked part of `uthread_terminate(tl.tid)`, executed
at the point `tl.pc`; gives the state and the next point, `none` after the
return. At `at_incr w` the iterator, which points to `w`, is advanced. When an
entry for `tl.tid` was destroyed after the loop began (by the
`dependencies_dict.erase` of another thread's `uthread_terminate`), the set the
iterator belongs to is gone and `++it` is undefined, also when a new set was
created for the key since. Otherwise the set is the one in the map, possibly
grown by `insert`, and the iterator moves to the next larger element. -/
def tail_step (MAX_THREAD_NUM : Nat) (s : State) (tl : Tail) : Option (State × Option TailPc) :=
  match tl.pc with
  | .at_incr w =>
    if tl.gen = s.erased.count tl.tid.toNat then
      match dict_find s.dependencies_dict tl.tid.toNat with
      | none => none
      | some ws =>
        match ws.find? (fun x => decide (w < x)) with
        | some n => some (s, some (TailPc.at_toggle n))
        | none => some (s, some TailPc.at_erase)
    else none
  | .at_toggle w =>
    match stmt_toggle s w with
    | none => none
    | some s1 => some (s1, some (TailPc.at_resume w))
  | .at_resume w =>
    match stmt_resume MAX_THREAD_NUM s w with
    | none => none
    | some s1 => some (s1, some (TailPc.at_incr w))
  | .at_erase => some (stmt_erase s tl.tid, some TailPc.at_delete)
  | .at_delete =>
    match stmt_delete s tl.tid with
    | none => none
    | some s1 => some (s1, some TailPc.at_decrement)
  | .at_decrement => some (stmt_decrement s, none)

/-- Record the point the call `uthread_terminate(tid)` has reached after
`terminate_front`; when it stands inside its loop, the loop has just begun. -/
def at_point (tid : Int) (r : State × Option TailPc) : State :=
  { r.1 with
    pc := r.2.map (fun p => { tid := tid, gen := r.1.erased.count tid.toNat, pc := p }) }

/-- The code a thread runs, with the timer signal blocked, when a jump lands
in its saved context. -/
def resume_cont (MAX_THREAD_NUM : Nat) (s : State) : Cont → Option State
  | .unset => none
  | .entry => some { s with pc := none }
  | .in_timer_handler => some { s with pc := none }
  | .in_timer_handler_from tl => some { s with pc := some tl }
  | .in_block => some { s with pc := none }
  | .in_terminate tid => (terminate_front MAX_THREAD_NUM s tid).map (at_point tid)
  | .in_sync tid current_thread =>
    ({ s with
        dependencies_dict := dict_insert tid.toNat current_thread s.dependencies_dict
        pc := none } : State).modifyThread current_thread Thread.switch_sync_state

/-- The function `_switch_threads`; `k` is the rest of the calling routine, saved
by `sigsetjmp(env[running_thread], 1)`. -/
def _switch_threads (MAX_THREAD_NUM : Nat) (s : State) (next : NextState) (k : Cont) : Res :=
  -- line 164: sigsetjmp(env[running_thread], 1), first return
  if s.running_thread < s.env.length then
    let s0 : State := { s with env := s.env.set s.running_thread k }
    -- lines 169-178
    let marked : Option State :=
      match next with
      | .READY =>
        ({ s0 with ready_threads_id := s0.ready_threads_id ++ [s0.running_thread] }
          : State).modifyThread s0.running_thread (fun t => t.setState TState.READY)
      | .BLOCKED => s0.modifyThread s0.running_thread (fun t => t.setState TState.BLOCKED)
      | .TERMINATED => some s0
    match marked with
    | none => .undefined
    | some s1 =>
      -- lines 179-180: front() and pop_front()
      match s1.ready_threads_id with
      | [] => .undefined
      | nxt :: rest =>
        let s2 : State := { s1 with running_thread := nxt, ready_threads_id := rest }
        -- lines 181-182
        match s2.modifyThread nxt (fun t => (t.setState TState.RUNNING).raise_quantums) with
        | none => .undefined
        | some s3 =>
          -- line 183
          let s4 : State := { s3 with quantums_num := inc32 s3.quantums_num }
          -- line 184
          match _start_timer s4 with
          | .returned _ _ =>
            -- line 185: siglongjmp(env[running_thread], 1)
            match s4.env[nxt]? with
            | none => .undefined
            | some c =>
              match resume_cont MAX_THREAD_NUM s4 c with
              | none => .undefined
              | some s5 => .switched s5
          | r => r
  else .undefined

/-- The function `_timer_handler`. The context it saves leads back to where
the signal found the thread. -/
def _timer_handler (MAX_THREAD_NUM : Nat) (s : State) : Res :=
  _switch_threads MAX_THREAD_NUM s NextState.READY
    (match s.pc with
     | none => Cont.in_timer_handler
     | some tl => Cont.in_timer_handler_from tl)

/-! ## The library API -/

/-- The function `uthread_init`. -/
def uthread_init (s : State) (quantum_usecs : Int) : Res :=
  if quantum_usecs ≤ 0 then .returned s (-1)
  else
    -- line 223
    let s1 : State := { s with quantum_usec := quantum_usecs }
    -- lines 224-226
    if 0 < s1.thread_list.length then
      let s2 : State :=
        { s1 with
          thread_list := s1.thread_list.set 0 (some (Thread.new TState.RUNNING 0))
          active_threads_num := inc32 s1.active_threads_num }
      -- line 227
      match s2.modifyThread s2.running_thread Thread.raise_quantums with
      | none => .undefined
      | some s3 =>
        -- line 228
        let s4 : State := { s3 with quantums_num := inc32 s3.quantums_num }
        -- lines 232-240: sigaction, _start_timer, _init_block_mask
        match _start_timer s4 with
        | .returned _ _ => .returned s4 0
        | r => r
    else .undefined

/-- The search loop of `uthread_spawn` (lines 256-265), started at `id` with
`fuel = MAX_THREAD_NUM - id`; gives the state and the value of `id` after it. -/
def spawn_loop (MAX_THREAD_NUM : Nat) (s : State) : Nat → Nat → Option (State × Nat)
  | 0, id => some (s, id)
  | fuel + 1, id =>
    if id < MAX_THREAD_NUM then
      match s.thread_list[id]? with
      | none => none
      | some none =>
        some ({ s with
                thread_list := s.thread_list.set id (some (Thread.new TState.READY id))
                ready_threads_id := s.ready_threads_id ++ [id] }, id)
      | some (some _) => spawn_loop MAX_THREAD_NUM s fuel (id + 1)
    else some (s, id)

/-- The function `uthread_spawn`. -/
def uthread_spawn (MAX_THREAD_NUM : Nat) (s : State) : Res :=
  if s.active_threads_num ≥ MAX_THREAD_NUM then .returned s (-1)
  else
    match spawn_loop MAX_THREAD_NUM s (MAX_THREAD_NUM - 1) 1 with
    | none => .undefined
    | some (s1, id) =>
      let s2 : State := { s1 with active_threads_num := inc32 s1.active_threads_num }
      match s2.deref id with
      | none => .undefined
      | some _ =>
        if id < s2.env.length then
          .returned { s2 with env := s2.env.set id Cont.entry } (toInt32 id)
        else .undefined

/-- How `uthread_terminate(tid)` goes on after lines 312-323 have run as far as
the mask allows: it has returned 0, or it stands at an unmasked statement. -/
def after_front (tid : Int) (gen : Nat) : Option (State × Option TailPc) → Res
  | none => .undefined
  | some (s1, none) => .returned { s1 with pc := none } 0
  | some (s1, some p) =>
    .preemptible { s1 with pc := some { tid := tid, gen := gen, pc := p } }

/-- The function `uthread_terminate`, up to its return or to the first
statement it runs with the timer signal unblocked. -/
def uthread_terminate (MAX_THREAD_NUM : Nat) (s : State) (tid : Int) : Res :=
  match _is_id_valid MAX_THREAD_NUM s tid with
  | none => .undefined
  | some false => .returned s (-1)
  | some true =>
    -- lines 296-301: _terminate_all(); _unblock(); exit(0)
    if tid = 0 then _terminate_all s
    else
      match s.deref tid.toNat with
      | none => .undefined
      | some t =>
        match t._state with
        | .READY =>
          after_front tid (s.erased.count tid.toNat)
            (terminate_front MAX_THREAD_NUM
              { s with ready_threads_id := s.ready_threads_id.filter (fun i => !(i == tid.toNat)) }
              tid)
        | .RUNNING =>
          _switch_threads MAX_THREAD_NUM s NextState.TERMINATED (Cont.in_terminate tid)
        | .BLOCKED =>
          after_front tid (s.erased.count tid.toNat) (terminate_front MAX_THREAD_NUM s tid)

/-- The function `uthread_block`. -/
def uthread_block (MAX_THREAD_NUM : Nat) (s : State) (tid : Int) : Res :=
  match _is_id_valid MAX_THREAD_NUM s tid with
  | none => .undefined
  | some false => .returned s (-1)
  | some true =>
    if tid = 0 then .returned s (-1)
    else
      match s.deref tid.toNat with
      | none => .undefined
      | some t =>
        match t._state with
        | .BLOCKED => .returned s 0
        | .RUNNING => _switch_threads MAX_THREAD_NUM s NextState.BLOCKED Cont.in_block
        | .READY =>
          .returned
            { s with
              ready_threads_id := s.ready_threads_id.filter (fun i => !(i == tid.toNat))
              thread_list := s.thread_list.set tid.toNat (some (t.setState TState.BLOCKED)) } 0

/-- The function `uthread_sync`. -/
def uthread_sync (MAX_THREAD_NUM : Nat) (s : State) (tid : Int) : Res :=
  match _is_id_valid MAX_THREAD_NUM s tid with
  | none => .undefined
  | some false => .returned s (-1)
  | some true =>
    if tid.toNat = s.running_thread ∨ tid = 0 then .returned s (-1)
    else
      _switch_threads MAX_THREAD_NUM s NextState.BLOCKED (Cont.in_sync tid s.running_thread)

/-- The function `uthread_get_tid`. -/
def uthread_get_tid (s : State) : Int := toInt32 s.running_thread

/-- The function `uthread_get_total_quantums`. -/
def uthread_get_total_quantums (s : State) : Int := toInt32 s.quantums_num

/-- The function `uthread_get_quantums`; `none` is undefined behaviour. -/
def uthread_get_quantums (MAX_THREAD_NUM : Nat) (s : State) (tid : Int) : Option Int :=
  match _is_id_valid MAX_THREAD_NUM s tid with
  | none => none
  | some false => some (-1)
  | some true =>
    match s.deref tid.toNat with
    | none => none
    | some t => some (toInt32 t._quantums_num)

/-! ## Runs of the library -/

/-- What can happen to an initialised library: a call by the running thread,
the next statement of the unmasked part of `uthread_terminate`, or the virtual
timer firing while its signal is unblocked. -/
inductive Event where
  | spawn
  | terminate (tid : Int)
  | block (tid : Int)
  | resume (tid : Int)
  | sync (tid : Int)
  | timer
  | advance
deriving DecidableEq

/-- A library call can start only while the running thread is outside the
library. -/
def call (s : State) (r : Res) : Option Res :=
  match s.pc with
  | none => some r
  | some _ => none

/-- One event; `none` when the event cannot happen in `s`. -/
def step (MAX_THREAD_NUM : Nat) (s : State) : Event → Option Res
  | .spawn => call s (uthread_spawn MAX_THREAD_NUM s)
  | .terminate tid => call s (uthread_terminate MAX_THREAD_NUM s tid)
  | .block tid => call s (uthread_block MAX_THREAD_NUM s tid)
  | .resume tid => call s (uthread_resume MAX_THREAD_NUM s tid)
  | .sync tid => call s (uthread_sync MAX_THREAD_NUM s tid)
  | .timer => some (_timer_handler MAX_THREAD_NUM s)
  | .advance =>
    s.pc.map (fun tl => after_front tl.tid tl.gen (tail_step MAX_THREAD_NUM s tl))

/-- The state after one event, when the event can happen and the process goes
on. -/
def next (MAX_THREAD_NUM : Nat) (s : State) (e : Event) : Option State :=
  (step MAX_THREAD_NUM s e).bind Res.state?

/-- Run a list of events from `s`; `none` once an event cannot happen, the
process has exited or has run into undefined behaviour. -/
def run (MAX_THREAD_NUM : Nat) (s : State) : List Event → Option State
  | [] => some s
  | e :: es =>
    match next MAX_THREAD_NUM s e with
    | none => none
    | some s1 => run MAX_THREAD_NUM s1 es

/-- The states the library can be in after one successful `uthread_init` on the
initial state, followed by any events. -/
inductive Reachable (MAX_THREAD_NUM : Nat) : State → Prop where
  | init (q : Int) (s : State)
      (h : uthread_init (State.initial MAX_THREAD_NUM) q = Res.returned s 0) :
      Reachable MAX_THREAD_NUM s
  | step (s s1 : State) (e : Event) (hs : Reachable MAX_THREAD_NUM s)
      (h : next MAX_THREAD_NUM s e = some s1) : Reachable MAX_THREAD_NUM s1

/-! ## Observations and named states -/

/-- Number of occupied slots of the thread table. -/
def occupied (s : State) : Nat := s.thread_list.countP Option.isSome

/-- The state label held in slot `i` of a thread table, when it is occupied. -/
def label (l : List (Option Thread)) (i : Nat) : Option TState := (l[i]?.join).map Thread._state

/-- The quantum count held in slot `i` of a thread table, when it is occupied. -/
def quanta (l : List (Option Thread)) (i : Nat) : Option Nat :=
  (l[i]?.join).map Thread._quantums_num

/-- The state `uthread_spawn` leaves when it creates thread `k`. -/
def spawned (s : State) (k : Nat) : State :=
  { s with
    thread_list := s.thread_list.set k (some (Thread.new TState.READY k))
    ready_threads_id := s.ready_threads_id ++ [k]
    active_threads_num := inc32 s.active_threads_num
    env := s.env.set k Cont.entry }

/-- The state with the main thread alone, `n` quanta after initialisation. -/
def mainOnly (M : Nat) (q : Int) (n : Nat) (c : Cont) : State :=
  { thread_list :=
      some { _tid := 0, _state := TState.RUNNING, _quantums_num := n, _is_synced := false } ::
        List.replicate (M - 1) none
    ready_threads_id := []
    active_threads_num := 1
    running_thread := 0
    quantums_num := n
    quantum_usec := q
    dependencies_dict := []
    env := c :: List.replicate (M - 1) Cont.unset
    pc := none
    erased := [] }

/-- Initialise with quantum `q`, then run the events. -/
def runFromInit (M : Nat) (q : Int) (es : List Event) : Option State :=
  match uthread_init (State.initial M) q with
  | .returned s 0 => run M s es
  | _ => none

/-! ## The two halves of `_switch_threads` -/

/-- Lines 169-178 of `_switch_threads`: re-queue and relabel the running thread. -/
def mark (s0 : State) (next : NextState) : Option State :=
  match next with
  | .READY =>
    ({ s0 with ready_threads_id := s0.ready_threads_id ++ [s0.running_thread] }
      : State).modifyThread s0.running_thread (fun t => t.setState TState.READY)
  | .BLOCKED => s0.modifyThread s0.running_thread (fun t => t.setState TState.BLOCKED)
  | .TERMINATED => some s0

/-- Lines 179-185 of `_switch_threads`: pop the next thread and jump to it. -/
def dispatch (M : Nat) (s1 : State) : Res :=
  match s1.ready_threads_id with
  | [] => .undefined
  | nxt :: rest =>
    let s2 : State := { s1 with running_thread := nxt, ready_threads_id := rest }
    match s2.modifyThread nxt (fun t => (t.setState TState.RUNNING).raise_quantums) with
    | none => .undefined
    | some s3 =>
      let s4 : State := { s3 with quantums_num := inc32 s3.quantums_num }
      match _start_timer s4 with
      | .returned _ _ =>
        match s4.env[nxt]? with
        | none => .undefined
        | some c =>
          match resume_cont M s4 c with
          | none => .undefined
          | some s5 => .switched s5
      | r => r

/-- A saved context from which thread `i` goes straight back to where it was:
it was filled, it is not the rest of a `uthread_terminate` call, and when it is
the rest of a `uthread_sync` call it belongs to thread `i`. -/
def Benign (i : Nat) (c : Cont) : Prop :=
  c ≠ Cont.unset ∧ (∀ tid, c ≠ Cont.in_terminate tid) ∧
    ∀ tid cur, c = Cont.in_sync tid cur → cur = i

/-- Round-robin shape: `l` is the running thread followed by the ready queue,
every thread of `l` exists, every queued thread was last suspended by the timer
outside the library or has not run yet, the running thread is outside the
library and the timer can be armed. -/
def RR (l : List Nat) (s : State) : Prop :=
  ∃ r q, l = r :: q ∧ s.running_thread = r ∧ s.ready_threads_id = q ∧
    (∀ i ∈ l, (label s.thread_list i).isSome ∧ i < s.env.length) ∧
    (∀ i ∈ q, s.env[i]? = some Cont.entry ∨ s.env[i]? = some Cont.in_timer_handler) ∧
    s.pc = none ∧ 0 ≤ s.quantum_usec ∧ s.quantum_usec ≤ 999999

/-! ## What every step keeps -/

/-- State `s1` has the table size and the saved contexts of `s`, and slot 0 is
occupied in `s1` when it is in `s`. -/
def Same (s s1 : State) : Prop :=
  s1.thread_list.length = s.thread_list.length ∧
    ((label s.thread_list 0).isSome → (label s1.thread_list 0).isSome) ∧
    s1.env = s.env

/-- The invariant behind the bounds of the thread table: the table has
`MAX_THREAD_NUM` slots, slot 0 is occupied, and no `uthread_terminate` call that
is under way, in the running thread or in a saved context, is about thread 0. -/
structure Kept (M : Nat) (s : State) : Prop where
  len_list : s.thread_list.length = M
  main : (label s.thread_list 0).isSome
  pc_tid : ∀ tl, s.pc = some tl → tl.tid.toNat ≠ 0
  env_terminate : ∀ (i : Nat) tid, s.env[i]? = some (Cont.in_terminate tid) → tid.toNat ≠ 0
  env_from : ∀ (i : Nat) tl, s.env[i]? = some (Cont.in_timer_handler_from tl) →
    tl.tid.toNat ≠ 0

/-! ## Auxiliary facts -/

theorem inc32_of_lt (n : Nat) (h : n + 1 < 2 ^ 32) : inc32 n = n + 1 := by
  unfold inc32; exact Nat.mod_eq_of_lt h

theorem toInt32_of_lt (n : Nat) (h : n < 2 ^ 31) : toInt32 n = (n : Int) := by
  unfold toInt32
  have h1 : n % 2 ^ 32 = n := Nat.mod_eq_of_lt (by omega)
  rw [h1, if_pos h]

theorem label_set (l : List (Option Thread)) (i j : Nat) (v : Option Thread)
    (hi : i < l.length) :
    label (l.set i v) j = if i = j then v.map Thread._state else label l j := by
  unfold label
  by_cases h : i = j
  · subst h; simp [hi]
  · simp [h]

theorem label_eq_some (l : List (Option Thread)) (i : Nat) (st : TState) :
    label l i = some st ↔ ∃ t, l[i]? = some (some t) ∧ t._state = st := by
  unfold label
  cases h : l[i]? with
  | none => simp
  | some o =>
    cases o with
    | none => simp
    | some t => simp

theorem label_isSome (l : List (Option Thread)) (i : Nat) :
    (label l i).isSome ↔ ∃ t, l[i]? = some (some t) := by
  unfold label
  cases h : l[i]? with
  | none => simp
  | some o =>
    cases o with
    | none => simp
    | some t => simp

theorem deref_eq_some (s : State) (i : Nat) (t : Thread) :
    s.deref i = some t ↔ s.thread_list[i]? = some (some t) := by
  unfold State.deref
  cases h : s.thread_list[i]? with
  | none => simp
  | some o =>
    cases o with
    | none => simp
    | some t => simp

theorem lt_length_of_getElem? {α : Type} (l : List α) (i : Nat) (a : α) (h : l[i]? = some a) :
    i < l.length := by
  rcases List.getElem?_eq_some_iff.1 h with ⟨h1, _⟩
  exact h1

theorem is_id_valid_true (M : Nat) (s : State) (tid : Int)
    (h : _is_id_valid M s tid = some true) :
    0 ≤ tid ∧ tid ≤ (M : Int) - 1 ∧ ∃ t, s.thread_list[tid.toNat]? = some (some t) := by
  unfold _is_id_valid at h
  split at h
  · simp at h
  · rename_i hr
    push_neg at hr
    refine ⟨hr.2, hr.1, ?_⟩
    split at h
    · simp at h
    · simp at h
    · rename_i t ht
      exact ⟨t, ht⟩

theorem is_id_valid_ne_none (M : Nat) (s : State) (hlen : s.thread_list.length = M) (t : Int) :
    _is_id_valid M s t ≠ none := by
  unfold _is_id_valid
  split
  · simp
  · rename_i h
    push_neg at h
    have hlt : t.toNat < s.thread_list.length := by omega
    cases hg : s.thread_list[t.toNat]? with
    | none =>
      rw [List.getElem?_eq_none_iff] at hg
      omega
    | some o => cases o <;> simp

theorem is_id_valid_deref (M : Nat) (s : State) (tid : Int)
    (h : _is_id_valid M s tid = some true) : ∃ t, s.deref tid.toNat = some t := by
  obtain ⟨_, _, t, ht⟩ := is_id_valid_true M s tid h
  exact ⟨t, (deref_eq_some s _ t).2 ht⟩

theorem modifyThread_eq (s s1 : State) (i : Nat) (f : Thread → Thread)
    (h : s.modifyThread i f = some s1) :
    ∃ t, s.thread_list[i]? = some (some t) ∧
      s1 = { s with thread_list := s.thread_list.set i (some (f t)) } := by
  unfold State.modifyThread at h
  split at h
  · simp at h
  · rename_i t ht
    rw [deref_eq_some] at ht
    simp only [Option.some.injEq] at h
    exact ⟨t, ht, h.symm⟩

theorem modifyThread_of_isSome (s : State) (i : Nat) (f : Thread → Thread)
    (h : (label s.thread_list i).isSome) :
    ∃ t, s.thread_list[i]? = some (some t) ∧
      s.modifyThread i f = some { s with thread_list := s.thread_list.set i (some (f t)) } := by
  obtain ⟨t, ht⟩ := (label_isSome _ _).1 h
  refine ⟨t, ht, ?_⟩
  unfold State.modifyThread
  rw [(deref_eq_some s i t).2 ht]

theorem label_isSome_set (l : List (Option Thread)) (i j : Nat) (t : Thread)
    (hi : (label l i).isSome) (hj : (label l j).isSome) :
    (label (l.set i (some t)) j).isSome := by
  obtain ⟨u, hu⟩ := (label_isSome _ _).1 hi
  rw [label_set _ _ _ _ (lt_length_of_getElem? _ _ _ hu)]
  split
  · simp
  · exact hj

theorem label_isSome_set_some (l : List (Option Thread)) (i j : Nat) (t u : Thread)
    (hi : l[i]? = some (some t)) :
    (label (l.set i (some u)) j).isSome = (label l j).isSome := by
  rw [label_set _ _ _ _ (lt_length_of_getElem? _ _ _ hi)]
  split
  · rename_i h
    subst h
    have : (label l i).isSome := (label_isSome _ _).2 ⟨t, hi⟩
    simp [this]
  · rfl

theorem quanta_set (l : List (Option Thread)) (i j : Nat) (v : Option Thread)
    (hi : i < l.length) :
    quanta (l.set i v) j = if i = j then v.map Thread._quantums_num else quanta l j := by
  unfold quanta
  by_cases h : i = j
  · subst h; simp [hi]
  · simp [h]

theorem quanta_eq_some (l : List (Option Thread)) (i : Nat) (t : Thread)
    (h : l[i]? = some (some t)) : quanta l i = some t._quantums_num := by
  unfold quanta
  rw [h]
  rfl

theorem getElem?_set_cont (e : List Cont) (r i : Nat) (k c : Cont) (hr : r < e.length)
    (h : (e.set r k)[i]? = some c) : (r = i ∧ c = k) ∨ (r ≠ i ∧ e[i]? = some c) := by
  by_cases hri : r = i
  · subst hri
    rw [List.getElem?_set_self hr] at h
    simp only [Option.some.injEq] at h
    exact Or.inl ⟨rfl, h.symm⟩
  · rw [List.getElem?_set_ne hri] at h
    exact Or.inr ⟨hri, h⟩

theorem switch_threads_eq (M : Nat) (s : State) (next : NextState) (k : Cont) :
    _switch_threads M s next k =
      if s.running_thread < s.env.length then
        match mark { s with env := s.env.set s.running_thread k } next with
        | none => .undefined
        | some s1 => dispatch M s1
      else .undefined := by
  unfold _switch_threads mark dispatch
  cases next <;> rfl

theorem start_timer_ok (s : State) (h : 0 ≤ s.quantum_usec ∧ s.quantum_usec ≤ 999999) :
    _start_timer s = Res.returned s 0 := by
  unfold _start_timer
  rw [if_pos h]

theorem init_eq (M : Nat) (hM : 0 < M) (q : Int) (hq : 0 < q) (hq2 : q ≤ 999999) :
    uthread_init (State.initial M) q = Res.returned (mainOnly M q 1 Cont.unset) 0 := by
  obtain ⟨n, rfl⟩ : ∃ n, M = n + 1 := ⟨M - 1, by omega⟩
  unfold uthread_init
  rw [if_neg (by omega)]
  have hq3 : 0 ≤ q := by omega
  simp [State.initial, List.replicate_succ, State.modifyThread, State.deref, mainOnly,
    Thread.new, Thread.raise_quantums, inc32, _start_timer, hq3, hq2]

theorem init_big (s : State) (q : Int) (hq : 999999 < q) :
    uthread_init s q = Res.undefined := by
  unfold uthread_init
  rw [if_neg (by omega)]
  simp only
  split
  · split
    · rfl
    · rename_i s3 hs3
      have : (State.mk s3.thread_list s3.ready_threads_id s3.active_threads_num
          s3.running_thread (inc32 s3.quantums_num) s3.quantum_usec s3.dependencies_dict s3.env
          s3.pc s3.erased).quantum_usec = q := by
        obtain ⟨t, _, rfl⟩ := modifyThread_eq _ _ _ _ hs3
        rfl
      unfold _start_timer
      rw [if_neg (by rw [this]; omega)]
      rfl
  · rfl

theorem init_returns (M : Nat) (q : Int) (s : State)
    (h : uthread_init (State.initial M) q = Res.returned s 0) :
    0 < M ∧ 0 < q ∧ q ≤ 999999 ∧ s = mainOnly M q 1 Cont.unset := by
  by_cases hq : q ≤ 0
  · unfold uthread_init at h
    rw [if_pos hq] at h
    simp at h
  · by_cases hq2 : q ≤ 999999
    · by_cases hM : 0 < M
      · rw [init_eq M hM q (by omega) hq2] at h
        simp only [Res.returned.injEq, and_true] at h
        exact ⟨hM, by omega, hq2, h.symm⟩
      · have : M = 0 := by omega
        subst this
        unfold uthread_init at h
        rw [if_neg hq] at h
        simp [State.initial] at h
    · rw [init_big _ q (by omega)] at h
      simp at h

theorem runFromInit_eq (M : Nat) (hM : 0 < M) (q : Int) (hq : 0 < q) (hq2 : q ≤ 999999)
    (es : List Event) :
    runFromInit M q es = run M (mainOnly M q 1 Cont.unset) es := by
  unfold runFromInit
  rw [init_eq M hM q hq hq2]
  rfl

theorem reachable_run (M : Nat) (es : List Event) :
    ∀ (s s1 : State), Reachable M s → run M s es = some s1 → Reachable M s1 := by
  induction es with
  | nil =>
    intro s s1 hs h
    simp only [run, Option.some.injEq] at h
    subst h
    exact hs
  | cons e es ih =>
    intro s s1 hs h
    unfold run at h
    split at h
    · simp at h
    · rename_i s2 hs2
      exact ih s2 s1 (Reachable.step s s2 e hs hs2) h

theorem reachable_runFromInit (M : Nat) (q : Int) (es : List Event) (s : State)
    (h : runFromInit M q es = some s) : Reachable M s := by
  unfold runFromInit at h
  split at h
  · rename_i s0 h0
    exact reachable_run M es s0 s (Reachable.init q s0 h0) h
  · simp at h

theorem timer_mainOnly (M : Nat) (q : Int) (hq : 0 ≤ q ∧ q ≤ 999999) (n : Nat) (c : Cont) :
    _timer_handler M (mainOnly M q n c) =
      Res.switched (mainOnly M q (inc32 n) Cont.in_timer_handler) := by
  simp [_timer_handler, _switch_threads, mainOnly, State.modifyThread, State.deref,
    Thread.setState, Thread.raise_quantums, resume_cont, _start_timer, hq]

theorem run_timers_mainOnly (M : Nat) (q : Int) (hq : 0 ≤ q ∧ q ≤ 999999) (k : Nat) :
    ∀ (n : Nat) (c : Cont), n < 2 ^ 32 →
      run M (mainOnly M q n c) (List.replicate k Event.timer) =
        some (mainOnly M q ((n + k) % 2 ^ 32) (if k = 0 then c else Cont.in_timer_handler)) := by
  induction k with
  | zero =>
    intro n c hn
    rw [Nat.add_zero, Nat.mod_eq_of_lt hn]
    simp [run]
  | succ k ih =>
    intro n c hn
    have hn1 : next M (mainOnly M q n c) Event.timer =
        some (mainOnly M q (inc32 n) Cont.in_timer_handler) := by
      simp [next, step, timer_mainOnly M q hq, Res.state?]
    simp only [List.replicate_succ, run, hn1]
    rw [ih (inc32 n) _ (by unfold inc32; exact Nat.mod_lt _ (by norm_num))]
    have : (inc32 n + k) % 2 ^ 32 = (n + (k + 1)) % 2 ^ 32 := by
      unfold inc32
      rw [Nat.add_mod, Nat.mod_mod, ← Nat.add_mod]
      congr 1
      omega
    rw [this]
    simp
theorem timer_RR (M : Nat) (l : List Nat) (s : State) (h : RR l s) :
    ∃ s1, _timer_handler M s = Res.switched s1 ∧ RR (l.rotate 1) s1 := by
  obtain ⟨r, q, hl, hr, hq, hocc, henv, hpc, husec⟩ := h
  obtain ⟨tl, rq, act, rt, qn, qu, dd, ev, pc, er⟩ := s
  simp only at hr hq hocc henv hpc husec
  subst hl hr hq hpc
  have hr_occ := (hocc rt (by simp)).1
  have hr_lt := (hocc rt (by simp)).2
  unfold _timer_handler
  rw [switch_threads_eq]
  simp only [if_pos hr_lt, mark]
  obtain ⟨t, ht, hmod⟩ := modifyThread_of_isSome
    (State.mk tl (rq ++ [rt]) act rt qn qu dd (ev.set rt Cont.in_timer_handler) none er) rt
    (fun t => t.setState TState.READY) hr_occ
  simp only at ht hmod
  rw [hmod]
  simp only
  have hrot : (rt :: rq).rotate 1 = rq ++ [rt] := by simp [List.rotate_cons_succ]
  rw [hrot]
  have henv2 : ∀ i, i = rt ∨ i ∈ rq →
      (ev.set rt Cont.in_timer_handler)[i]? = some Cont.entry ∨
        (ev.set rt Cont.in_timer_handler)[i]? = some Cont.in_timer_handler := by
    intro i hi
    by_cases hir : rt = i
    · subst hir
      right
      exact List.getElem?_set_self hr_lt
    · rw [List.getElem?_set_ne hir]
      rcases hi with hi | hi
      · exact absurd hi.symm hir
      · exact henv i hi
  cases hqq : rq ++ [rt] with
  | nil => simp at hqq
  | cons nxt rest =>
    have hnxt : nxt = rt ∨ nxt ∈ rq := by
      have : nxt ∈ rq ++ [rt] := by rw [hqq]; simp
      simp only [List.mem_append, List.mem_singleton] at this
      exact this.symm
    have hnxt_mem : nxt ∈ rt :: rq := by
      rcases hnxt with h1 | h1
      · simp [h1]
      · simp [h1]
    have hrest : ∀ i ∈ rest, i = rt ∨ i ∈ rq := by
      intro i hi
      have : i ∈ rq ++ [rt] := by rw [hqq]; simp [hi]
      simp only [List.mem_append, List.mem_singleton] at this
      exact this.symm
    simp only [dispatch]
    obtain ⟨u, hu, hmod2⟩ := modifyThread_of_isSome
      (State.mk (tl.set rt (some (t.setState TState.READY))) rest act nxt qn qu dd
        (ev.set rt Cont.in_timer_handler) none er)
      nxt (fun t => (t.setState TState.RUNNING).raise_quantums)
      (label_isSome_set _ _ _ _ hr_occ (hocc nxt hnxt_mem).1)
    simp only at hu hmod2
    rw [hmod2]
    simp only [_start_timer, if_pos husec]
    rcases henv2 nxt hnxt with hc | hc
    all_goals
      rw [hc]
      simp only [resume_cont]
      refine ⟨_, rfl, nxt, rest, rfl, rfl, rfl, ?_, ?_, rfl, husec⟩
      · intro i hi
        have hi2 : i ∈ rt :: rq := by
          simp only [List.mem_cons] at hi
          rcases hi with hi | hi
          · rw [hi]; exact hnxt_mem
          · rcases hrest i hi with h1 | h1
            · simp [h1]
            · simp [h1]
        refine ⟨?_, by simpa using (hocc i hi2).2⟩
        exact label_isSome_set _ _ _ _ (label_isSome_set _ _ _ _ hr_occ (hocc nxt hnxt_mem).1)
          (label_isSome_set _ _ _ _ hr_occ (hocc i hi2).1)
      · intro i hi
        exact henv2 i (hrest i hi)

theorem run_timers_RR (M : Nat) (n : Nat) :
    ∀ (l : List Nat) (s : State), RR l s →
      ∃ s1, run M s (List.replicate n Event.timer) = some s1 ∧ RR (l.rotate n) s1 := by
  induction n with
  | zero =>
    intro l s h
    exact ⟨s, by simp [run], by simpa using h⟩
  | succ n ih =>
    intro l s h
    obtain ⟨s1, h1, h2⟩ := timer_RR M l s h
    obtain ⟨s2, h3, h4⟩ := ih _ s1 h2
    refine ⟨s2, ?_, ?_⟩
    · have hn1 : next M s Event.timer = some s1 := by
        simp [next, step, h1, Res.state?]
      simp only [List.replicate_succ, run, hn1]
      exact h3
    · rw [List.rotate_rotate, Nat.add_comm] at h4
      exact h4

theorem spawn_three (n : Nat) (q : Int) :
    uthread_spawn (n + 4) (mainOnly (n + 4) q 1 Cont.unset) =
        Res.returned (spawned (mainOnly (n + 4) q 1 Cont.unset) 1) 1 ∧
      uthread_spawn (n + 4) (spawned (mainOnly (n + 4) q 1 Cont.unset) 1) =
        Res.returned (spawned (spawned (mainOnly (n + 4) q 1 Cont.unset) 1) 2) 2 ∧
      uthread_spawn (n + 4) (spawned (spawned (mainOnly (n + 4) q 1 Cont.unset) 1) 2) =
        Res.returned (spawned (spawned (spawned (mainOnly (n + 4) q 1 Cont.unset) 1) 2) 3) 3 := by
  refine ⟨?_, ?_, ?_⟩
  · simp [uthread_spawn, mainOnly, spawn_loop, List.replicate_succ, State.deref, inc32, toInt32,
      spawned]
  · simp [uthread_spawn, mainOnly, spawn_loop, List.replicate_succ, State.deref, inc32, toInt32,
      spawned]
  · simp [uthread_spawn, mainOnly, spawn_loop, List.replicate_succ, State.deref, inc32, toInt32,
      spawned]

theorem RR_three (n : Nat) (q : Int) (hq : 0 ≤ q ∧ q ≤ 999999) :
    RR [0, 1, 2, 3] (spawned (spawned (spawned (mainOnly (n + 4) q 1 Cont.unset) 1) 2) 3) := by
  refine ⟨0, [1, 2, 3], rfl, rfl, ?_, ?_, ?_, rfl, hq⟩
  · simp [spawned, mainOnly]
  · intro i hi
    simp only [List.mem_cons, List.mem_singleton, List.not_mem_nil, or_false] at hi
    rcases hi with rfl | rfl | rfl | rfl <;>
      simp [spawned, mainOnly, label, List.replicate_succ]
  · intro i hi
    simp only [List.mem_cons, List.mem_singleton, List.not_mem_nil, or_false] at hi
    rcases hi with rfl | rfl | rfl <;> simp [spawned, mainOnly, List.replicate_succ]

theorem rotate_head (k : Nat) :
    ([0, 1, 2, 3] : List Nat).rotate (k + 1) =
      ([1, 2, 3, 0] : List Nat).getD (k % 4) 0 :: (([0, 1, 2, 3] : List Nat).rotate (k + 1)).tail := by
  rw [← List.rotate_mod]
  have h1 : (k + 1) % 4 = (k % 4 + 1) % 4 := by omega
  have h2 : k % 4 < 4 := Nat.mod_lt _ (by norm_num)
  simp only [List.length_cons, List.length_nil, Nat.zero_add, Nat.reduceAdd]
  rw [h1]
  generalize k % 4 = m at h2
  interval_cases m <;> rfl

/-- The second half of `_switch_threads`, evaluated when the thread at the
front of the queue exists, its saved context is benign and the timer can be
armed. -/
theorem dispatch_eval (M : Nat) (sm : State) (nxt : Nat) (rest : List Nat) (u : Thread)
    (c : Cont) (hq : sm.ready_threads_id = nxt :: rest)
    (hu : sm.thread_list[nxt]? = some (some u)) (hc : sm.env[nxt]? = some c)
    (hb : Benign nxt c) (husec : 0 ≤ sm.quantum_usec ∧ sm.quantum_usec ≤ 999999) :
    ∃ s1, dispatch M sm = Res.switched s1 ∧
      s1.running_thread = nxt ∧ s1.ready_threads_id = rest ∧
      s1.quantums_num = inc32 sm.quantums_num ∧
      label s1.thread_list nxt = some TState.RUNNING ∧
      quanta s1.thread_list nxt = some (inc32 u._quantums_num) ∧
      (∀ j, j ≠ nxt → label s1.thread_list j = label sm.thread_list j ∧
        quanta s1.thread_list j = quanta sm.thread_list j) := by
  have hlt := lt_length_of_getElem? _ _ _ hu
  obtain ⟨tl, rq, act, rt, qn, qu, dd, ev, pc, er⟩ := sm
  simp only at hq hu hc hlt husec
  subst hq
  have hmod : (State.mk tl rest act nxt qn qu dd ev pc er).modifyThread nxt
      (fun t => (t.setState TState.RUNNING).raise_quantums) =
      some (State.mk (tl.set nxt (some ((u.setState TState.RUNNING).raise_quantums)))
        rest act nxt qn qu dd ev pc er) := by
    unfold State.modifyThread
    rw [(deref_eq_some _ nxt u).2 hu]
  simp only [dispatch, hmod, hc, _start_timer, if_pos husec]
  have frame : ∀ (v : Thread), v._state = TState.RUNNING →
      v._quantums_num = inc32 u._quantums_num →
      label (tl.set nxt (some v)) nxt = some TState.RUNNING ∧
      quanta (tl.set nxt (some v)) nxt = some (inc32 u._quantums_num) ∧
      ∀ j, j ≠ nxt → label (tl.set nxt (some v)) j = label tl j ∧
        quanta (tl.set nxt (some v)) j = quanta tl j := by
    intro v hv1 hv2
    refine ⟨?_, ?_, ?_⟩
    · rw [label_set _ _ _ _ hlt, if_pos rfl]; simp [hv1]
    · rw [quanta_set _ _ _ _ hlt, if_pos rfl]; simp [hv2]
    · intro j hj
      rw [label_set _ _ _ _ hlt, quanta_set _ _ _ _ hlt, if_neg (Ne.symm hj),
        if_neg (Ne.symm hj)]
      exact ⟨rfl, rfl⟩
  obtain ⟨hb1, hb2, hb3⟩ := hb
  cases c with
  | unset => exact absurd rfl hb1
  | entry =>
    exact ⟨_, rfl, rfl, rfl, rfl, frame _ rfl rfl⟩
  | in_timer_handler =>
    exact ⟨_, rfl, rfl, rfl, rfl, frame _ rfl rfl⟩
  | in_timer_handler_from tl0 =>
    exact ⟨_, rfl, rfl, rfl, rfl, frame _ rfl rfl⟩
  | in_block =>
    exact ⟨_, rfl, rfl, rfl, rfl, frame _ rfl rfl⟩
  | in_terminate tid => exact absurd rfl (hb2 tid)
  | in_sync tid cur =>
    have hcur := hb3 tid cur rfl
    subst hcur
    have hmod2 : (State.mk (tl.set cur (some ((u.setState TState.RUNNING).raise_quantums)))
        rest act cur (inc32 qn) qu (dict_insert tid.toNat cur dd) ev none er).modifyThread cur
        Thread.switch_sync_state =
        some (State.mk ((tl.set cur (some ((u.setState TState.RUNNING).raise_quantums))).set cur
          (some ((u.setState TState.RUNNING).raise_quantums).switch_sync_state))
          rest act cur (inc32 qn) qu (dict_insert tid.toNat cur dd) ev none er) := by
      unfold State.modifyThread State.deref
      simp [List.getElem?_set_self hlt]
    simp only [resume_cont, hmod2]
    refine ⟨_, rfl, rfl, rfl, rfl, ?_⟩
    simp only [List.set_set]
    exact frame _ rfl rfl

/-- After the running thread is relabelled `st` and the queue is `nxt :: rest`,
the second half of `_switch_threads` runs `nxt`. -/
theorem relabel_dispatch (M : Nat) (s : State) (st : TState)
    (k : Cont) (nxt : Nat) (rest : List Nat) (t : Thread) (c : Cont)
    (ht : s.thread_list[s.running_thread]? = some (some t))
    (husec : 0 ≤ s.quantum_usec ∧ s.quantum_usec ≤ 999999)
    (hnxt : (label s.thread_list nxt).isSome)
    (hc : (s.env.set s.running_thread k)[nxt]? = some c) (hb : Benign nxt c) :
    ∃ s1 n,
      dispatch M
          { s with
            env := s.env.set s.running_thread k
            ready_threads_id := nxt :: rest
            thread_list := s.thread_list.set s.running_thread (some (t.setState st)) }
        = Res.switched s1 ∧
      s1.running_thread = nxt ∧ s1.ready_threads_id = rest ∧
      s1.quantums_num = inc32 s.quantums_num ∧
      label s1.thread_list nxt = some TState.RUNNING ∧
      (s.running_thread ≠ nxt → label s1.thread_list s.running_thread = some st) ∧
      quanta s.thread_list nxt = some n ∧
      quanta s1.thread_list nxt = some (inc32 n) ∧
      (∀ j, j ≠ nxt → quanta s1.thread_list j = quanta s.thread_list j) := by
  have hrl := lt_length_of_getElem? _ _ _ ht
  have hq : ∀ j, quanta (s.thread_list.set s.running_thread (some (t.setState st))) j =
      quanta s.thread_list j := by
    intro j
    rw [quanta_set _ _ _ _ hrl]
    split
    · rename_i h
      subst h
      rw [quanta_eq_some _ _ _ ht]
      rfl
    · rfl
  have hocc : ∃ u, (s.thread_list.set s.running_thread (some (t.setState st)))[nxt]? =
      some (some u) := by
    apply (label_isSome _ _).1
    rw [label_isSome_set_some _ _ _ _ _ ht]
    exact hnxt
  obtain ⟨u, hu⟩ := hocc
  obtain ⟨s1, h1, h2, h3, h4, h5, h6, h7⟩ :=
    dispatch_eval M
      { s with
        env := s.env.set s.running_thread k
        ready_threads_id := nxt :: rest
        thread_list := s.thread_list.set s.running_thread (some (t.setState st)) }
      nxt rest u c rfl hu hc hb husec
  simp only at h4 h7
  refine ⟨s1, u._quantums_num, h1, h2, h3, h4, h5, ?_, ?_, h6, ?_⟩
  · intro hne
    rw [(h7 _ hne).1, label_set _ _ _ _ hrl, if_pos rfl]
    rfl
  · rw [← hq nxt]
    exact quanta_eq_some _ _ _ hu
  · intro j hj
    rw [(h7 j hj).2, hq j]

theorem label0_set_some (l : List (Option Thread)) (i : Nat) (v : Thread)
    (h : (label l 0).isSome) : (label (l.set i (some v)) 0).isSome := by
  by_cases hi : i < l.length
  · rw [label_set _ _ _ _ hi]
    split
    · simp
    · exact h
  · rw [List.set_eq_of_length_le (by omega)]
    exact h

theorem label0_set_none (l : List (Option Thread)) (i : Nat) (hi0 : i ≠ 0)
    (h : (label l 0).isSome) : (label (l.set i none) 0).isSome := by
  by_cases hi : i < l.length
  · rw [label_set _ _ _ _ hi, if_neg hi0]
    exact h
  · rw [List.set_eq_of_length_le (by omega)]
    exact h

theorem Same.refl (s : State) : Same s s := ⟨rfl, fun h => h, rfl⟩

theorem Same.trans {s s1 s2 : State} (h1 : Same s s1) (h2 : Same s1 s2) : Same s s2 :=
  ⟨h2.1.trans h1.1, fun h => h2.2.1 (h1.2.1 h), h2.2.2.trans h1.2.2⟩

theorem same_modify (s s1 : State) (i : Nat) (f : Thread → Thread)
    (h : s.modifyThread i f = some s1) : Same s s1 ∧ s1.pc = s.pc := by
  obtain ⟨t, _, rfl⟩ := modifyThread_eq s s1 i f h
  exact ⟨⟨by simp, fun h0 => label0_set_some _ _ _ h0, rfl⟩, rfl⟩

theorem same_resume (M : Nat) (s s1 : State) (tid v : Int)
    (h : uthread_resume M s tid = Res.returned s1 v) : Same s s1 ∧ s1.pc = s.pc := by
  unfold uthread_resume at h
  split at h
  · simp at h
  · simp at h; rw [← h.1]; exact ⟨Same.refl s, rfl⟩
  · split at h
    · simp at h
    · split at h
      · simp only [Res.returned.injEq] at h
        rw [← h.1]
        exact ⟨⟨by simp, fun h0 => label0_set_some _ _ _ h0, rfl⟩, rfl⟩
      · simp at h; rw [← h.1]; exact ⟨Same.refl s, rfl⟩

theorem resume_not_switched (M : Nat) (s s1 : State) (tid : Int)
    (h : (uthread_resume M s tid).state? = some s1) :
    ∃ v, uthread_resume M s tid = Res.returned s1 v := by
  have key : ∀ r, uthread_resume M s tid = r → ∃ s2 v, r = Res.returned s2 v ∨ r = Res.undefined := by
    intro r hr
    unfold uthread_resume at hr
    split at hr
    · exact ⟨s, 0, Or.inr hr.symm⟩
    · exact ⟨_, _, Or.inl hr.symm⟩
    · split at hr
      · exact ⟨s, 0, Or.inr hr.symm⟩
      · split at hr
        · exact ⟨_, _, Or.inl hr.symm⟩
        · exact ⟨_, _, Or.inl hr.symm⟩
  obtain ⟨s2, v, hr | hr⟩ := key _ rfl
  · rw [hr] at h ⊢
    simp only [Res.state?, Option.some.injEq] at h
    subst h
    exact ⟨v, rfl⟩
  · rw [hr] at h
    simp [Res.state?] at h

theorem same_stmt_resume (M : Nat) (s s1 : State) (w : Nat)
    (h : stmt_resume M s w = some s1) : Same s s1 := by
  unfold stmt_resume at h
  split at h
  · rename_i s2 v hv
    simp only [Option.some.injEq] at h
    subst h
    exact (same_resume M s s2 _ v hv).1
  · simp at h

theorem same_stmt_erase (s : State) (tid : Int) : Same s (stmt_erase s tid) := by
  unfold Same stmt_erase
  exact ⟨rfl, fun h => h, rfl⟩

theorem same_stmt_decrement (s : State) : Same s (stmt_decrement s) := by
  unfold Same stmt_decrement
  exact ⟨rfl, fun h => h, rfl⟩

theorem same_stmt_delete (s s1 : State) (tid : Int) (h0 : tid.toNat ≠ 0)
    (h : stmt_delete s tid = some s1) : Same s s1 := by
  unfold stmt_delete at h
  split at h
  · simp only [Option.some.injEq] at h
    subst h
    exact ⟨by simp, fun h1 => label0_set_none _ _ h0 h1, rfl⟩
  · simp at h

theorem same_terminate_front (M : Nat) (s s1 : State) (tid : Int) (p : Option TailPc)
    (h0 : tid.toNat ≠ 0) (h : terminate_front M s tid = some (s1, p)) : Same s s1 := by
  unfold terminate_front at h
  split at h
  · split at h
    · simp at h
    · rename_i s2 hs2
      simp only [Option.some.injEq, Prod.mk.injEq] at h
      rw [← h.1]
      exact (same_stmt_delete s s2 tid h0 hs2).trans (same_stmt_decrement s2)
  · split at h
    · simp at h
    · rename_i s2 hs2
      simp only [Option.some.injEq, Prod.mk.injEq] at h
      rw [← h.1]
      exact ((same_stmt_erase s tid).trans (same_stmt_delete _ s2 tid h0 hs2)).trans
        (same_stmt_decrement s2)
  · split at h
    · simp at h
    · rename_i sa hsa
      split at h
      · simp at h
      · rename_i sb hsb
        simp only [Option.some.injEq, Prod.mk.injEq] at h
        rw [← h.1]
        exact (same_modify s sa _ _ hsa).1.trans (same_stmt_resume M sa sb _ hsb)

theorem same_tail_step (M : Nat) (s s1 : State) (tl : Tail) (p : Option TailPc)
    (h0 : tl.tid.toNat ≠ 0) (h : tail_step M s tl = some (s1, p)) : Same s s1 := by
  unfold tail_step at h
  split at h
  · split at h
    · split at h
      · simp at h
      · split at h
        · simp only [Option.some.injEq, Prod.mk.injEq] at h
          rw [← h.1]; exact Same.refl s
        · simp only [Option.some.injEq, Prod.mk.injEq] at h
          rw [← h.1]; exact Same.refl s
    · simp at h
  · split at h
    · simp at h
    · rename_i sa hsa
      simp only [Option.some.injEq, Prod.mk.injEq] at h
      rw [← h.1]
      exact (same_modify s sa _ _ hsa).1
  · split at h
    · simp at h
    · rename_i sa hsa
      simp only [Option.some.injEq, Prod.mk.injEq] at h
      rw [← h.1]
      exact same_stmt_resume M s sa _ hsa
  · simp only [Option.some.injEq, Prod.mk.injEq] at h
    rw [← h.1]
    exact same_stmt_erase s tl.tid
  · split at h
    · simp at h
    · rename_i sa hsa
      simp only [Option.some.injEq, Prod.mk.injEq] at h
      rw [← h.1]
      exact same_stmt_delete s sa _ h0 hsa
  · simp only [Option.some.injEq, Prod.mk.injEq] at h
    rw [← h.1]
    exact same_stmt_decrement s

/-- A state with the same table shape and contexts, whose `pc` is about a
thread other than 0, satisfies the invariant again. -/
theorem kept_of_same (M : Nat) (s s1 : State) (hK : Kept M s) (hs : Same s s1)
    (hpc : ∀ tl, s1.pc = some tl → tl.tid.toNat ≠ 0) : Kept M s1 := by
  obtain ⟨h1, h2, h3⟩ := hs
  constructor
  · rw [h1]; exact hK.len_list
  · exact h2 hK.main
  · exact hpc
  · intro i tid hi
    rw [h3] at hi
    exact hK.env_terminate i tid hi
  · intro i tl hi
    rw [h3] at hi
    exact hK.env_from i tl hi

theorem kept_after_front (M : Nat) (s s1 : State) (tid : Int) (gen : Nat)
    (h0 : tid.toNat ≠ 0) (r : Option (State × Option TailPc)) (hK : Kept M s)
    (hr : ∀ s2 p, r = some (s2, p) → Same s s2)
    (h : (after_front tid gen r).state? = some s1) : Kept M s1 := by
  unfold after_front at h
  split at h
  · simp [Res.state?] at h
  · rename_i s2
    simp only [Res.state?, Option.some.injEq] at h
    subst h
    obtain ⟨a, b, c⟩ := hr s2 none rfl
    exact kept_of_same M s _ hK ⟨a, b, c⟩ (by simp)
  · rename_i s2 p
    simp only [Res.state?, Option.some.injEq] at h
    subst h
    obtain ⟨a, b, c⟩ := hr s2 (some p) rfl
    refine kept_of_same M s _ hK ⟨a, b, c⟩ ?_
    intro tl htl
    simp only [Option.some.injEq] at htl
    rw [← htl]
    exact h0

theorem start_timer_cases (s : State) :
    _start_timer s = Res.returned s 0 ∨ _start_timer s = Res.undefined := by
  unfold _start_timer
  split
  · exact Or.inl rfl
  · exact Or.inr rfl

theorem kept_modify (M : Nat) (s s1 : State) (i : Nat) (f : Thread → Thread) (hK : Kept M s)
    (h : s.modifyThread i f = some s1) : Kept M s1 := by
  obtain ⟨hs, hpc⟩ := same_modify s s1 i f h
  exact kept_of_same M s s1 hK hs (by rw [hpc]; exact hK.pc_tid)

theorem kept_resume_cont (M : Nat) (s s1 : State) (i : Nat) (c : Cont) (hK : Kept M s)
    (hc : s.env[i]? = some c) (h : resume_cont M s c = some s1) : Kept M s1 := by
  cases c with
  | unset => simp [resume_cont] at h
  | entry =>
    simp only [resume_cont, Option.some.injEq] at h
    subst h
    exact kept_of_same M s _ hK (Same.refl s) (by simp)
  | in_timer_handler =>
    simp only [resume_cont, Option.some.injEq] at h
    subst h
    exact kept_of_same M s _ hK (Same.refl s) (by simp)
  | in_timer_handler_from tl =>
    simp only [resume_cont, Option.some.injEq] at h
    subst h
    refine kept_of_same M s _ hK (Same.refl s) ?_
    intro tl2 h2
    simp only [Option.some.injEq] at h2
    rw [← h2]
    exact hK.env_from i tl hc
  | in_block =>
    simp only [resume_cont, Option.some.injEq] at h
    subst h
    exact kept_of_same M s _ hK (Same.refl s) (by simp)
  | in_terminate tid =>
    have h0 := hK.env_terminate i tid hc
    simp only [resume_cont, Option.map_eq_some'] at h
    obtain ⟨⟨s2, p⟩, h1, h2⟩ := h
    subst h2
    obtain ⟨a, b, c⟩ := same_terminate_front M s s2 tid p h0 h1
    refine kept_of_same M s _ hK ⟨a, b, c⟩ ?_
    intro tl htl
    simp only [at_point, Option.map_eq_some'] at htl
    obtain ⟨p2, _, hp2⟩ := htl
    rw [← hp2]
    exact h0
  | in_sync tid cur =>
    simp only [resume_cont] at h
    obtain ⟨⟨a, b, c⟩, hpc⟩ := same_modify _ s1 cur _ h
    refine kept_of_same M s s1 hK ⟨a, b, c⟩ ?_
    rw [hpc]
    simp

theorem kept_dispatch (M : Nat) (sm s2 : State) (hK : Kept M sm)
    (h : (dispatch M sm).state? = some s2) : Kept M s2 := by
  unfold dispatch at h
  split at h
  · simp [Res.state?] at h
  · rename_i nxt rest hq
    simp only at h
    split at h
    · simp [Res.state?] at h
    · rename_i s3 hs3
      have hK2 : Kept M { sm with running_thread := nxt, ready_threads_id := rest } :=
        kept_of_same M sm _ hK (Same.refl sm) hK.pc_tid
      have hK3 := kept_modify M _ s3 _ _ hK2 hs3
      have hK4 : Kept M { s3 with quantums_num := inc32 s3.quantums_num } :=
        kept_of_same M s3 _ hK3 (Same.refl s3) hK3.pc_tid
      split at h
      · split at h
        · simp [Res.state?] at h
        · rename_i c hc
          split at h
          · simp [Res.state?] at h
          · rename_i s5 hs5
            simp only [Res.state?, Option.some.injEq] at h
            subst h
            exact kept_resume_cont M _ s5 nxt c hK4 hc hs5
      · rename_i r hr
        rcases start_timer_cases { s3 with quantums_num := inc32 s3.quantums_num } with h1 | h1
        · exact absurd h1 (hr _ _)
        · rw [h1] at h
          simp [Res.state?] at h

theorem kept_switch (M : Nat) (s s1 : State) (next : NextState) (k : Cont) (hK : Kept M s)
    (hk1 : ∀ tid, k = Cont.in_terminate tid → tid.toNat ≠ 0)
    (hk2 : ∀ tl, k = Cont.in_timer_handler_from tl → tl.tid.toNat ≠ 0)
    (h : (_switch_threads M s next k).state? = some s1) : Kept M s1 := by
  rw [switch_threads_eq] at h
  split at h
  · rename_i hr
    split at h
    · simp [Res.state?] at h
    · rename_i sm hsm
      have hK0 : Kept M { s with env := s.env.set s.running_thread k } := by
        constructor
        · exact hK.len_list
        · exact hK.main
        · exact hK.pc_tid
        · intro i tid hi
          simp only at hi
          rcases getElem?_set_cont _ _ _ _ _ hr hi with h1 | h1
          · exact hk1 tid h1.2.symm
          · exact hK.env_terminate i tid h1.2
        · intro i tl hi
          simp only at hi
          rcases getElem?_set_cont _ _ _ _ _ hr hi with h1 | h1
          · exact hk2 tl h1.2.symm
          · exact hK.env_from i tl h1.2
      have hKm : Kept M sm := by
        cases next with
        | READY =>
          simp only [mark] at hsm
          refine kept_modify M _ sm _ _ ?_ hsm
          exact kept_of_same M _ _ hK0 (Same.refl _) hK0.pc_tid
        | BLOCKED =>
          simp only [mark] at hsm
          exact kept_modify M _ sm _ _ hK0 hsm
        | TERMINATED =>
          simp only [mark, Option.some.injEq] at hsm
          subst hsm
          exact hK0
      exact kept_dispatch M sm s1 hKm h
  · simp [Res.state?] at h

theorem toNat_ne_zero (tid : Int) (h0 : 0 ≤ tid) (h : tid ≠ 0) : tid.toNat ≠ 0 := by
  omega

theorem spawn_loop_shape (M : Nat) (s : State) :
    ∀ (fuel id : Nat) (s1 : State) (k : Nat), spawn_loop M s fuel id = some (s1, k) →
      s1 = s ∨
        s1 = { s with
                thread_list := s.thread_list.set k (some (Thread.new TState.READY k))
                ready_threads_id := s.ready_threads_id ++ [k] } := by
  intro fuel
  induction fuel with
  | zero =>
    intro id s1 k h
    simp only [spawn_loop, Option.some.injEq, Prod.mk.injEq] at h
    exact Or.inl h.1.symm
  | succ fuel ih =>
    intro id s1 k h
    unfold spawn_loop at h
    split at h
    · split at h
      · simp at h
      · simp only [Option.some.injEq, Prod.mk.injEq] at h
        right
        rw [← h.1, ← h.2]
      · exact ih _ _ _ h
    · simp only [Option.some.injEq, Prod.mk.injEq] at h
      exact Or.inl h.1.symm

theorem kept_spawn (M : Nat) (s s1 : State) (hK : Kept M s)
    (h : (uthread_spawn M s).state? = some s1) : Kept M s1 := by
  unfold uthread_spawn at h
  split at h
  · simp only [Res.state?, Option.some.injEq] at h
    subst h
    exact hK
  · split at h
    · simp [Res.state?] at h
    · rename_i sl id hsl
      simp only at h
      split at h
      · simp [Res.state?] at h
      · split at h
        · rename_i hid
          simp only [Res.state?, Option.some.injEq] at h
          subst h
          have hKl : Kept M sl := by
            rcases spawn_loop_shape M s _ _ sl id hsl with h1 | h1
            · rw [h1]; exact hK
            · rw [h1]
              refine kept_of_same M s _ hK ⟨by simp, fun h0 => label0_set_some _ _ _ h0, rfl⟩ ?_
              exact hK.pc_tid
          constructor
          · exact hKl.len_list
          · exact hKl.main
          · exact hKl.pc_tid
          · intro i tid hi
            simp only at hi
            rcases getElem?_set_cont _ _ _ _ _ hid hi with h1 | h1
            · simp at h1
            · exact hKl.env_terminate i tid h1.2
          · intro i tl hi
            simp only at hi
            rcases getElem?_set_cont _ _ _ _ _ hid hi with h1 | h1
            · simp at h1
            · exact hKl.env_from i tl h1.2
        · simp [Res.state?] at h

theorem kept_terminate (M : Nat) (s s1 : State) (tid : Int) (hK : Kept M s)
    (h : (uthread_terminate M s tid).state? = some s1) : Kept M s1 := by
  unfold uthread_terminate at h
  split at h
  · simp [Res.state?] at h
  · simp only [Res.state?, Option.some.injEq] at h; subst h; exact hK
  · rename_i hv
    obtain ⟨hge, _, _⟩ := is_id_valid_true M s tid hv
    split at h
    · simp [_terminate_all, Res.state?] at h
    · rename_i hne0
      have hn0 := toNat_ne_zero tid hge hne0
      split at h
      · simp [Res.state?] at h
      · split at h
        · refine kept_after_front M
            { s with ready_threads_id := s.ready_threads_id.filter (fun i => !(i == tid.toNat)) }
            s1 tid _ hn0 _ ?_ ?_ h
          · exact kept_of_same M s _ hK ⟨rfl, fun h1 => h1, rfl⟩ hK.pc_tid
          · intro s2 p hr
            exact same_terminate_front M _ s2 tid p hn0 hr
        · refine kept_switch M s s1 _ _ hK ?_ (fun _ he => by simp at he) h
          intro tid2 he
          simp only [Cont.in_terminate.injEq] at he
          rw [← he]
          exact hn0
        · refine kept_after_front M s s1 tid _ hn0 _ hK ?_ h
          intro s2 p hr
          exact same_terminate_front M s s2 tid p hn0 hr

theorem kept_block (M : Nat) (s s1 : State) (tid : Int) (hK : Kept M s)
    (h : (uthread_block M s tid).state? = some s1) : Kept M s1 := by
  unfold uthread_block at h
  split at h
  · simp [Res.state?] at h
  · simp only [Res.state?, Option.some.injEq] at h; subst h; exact hK
  · split at h
    · simp only [Res.state?, Option.some.injEq] at h; subst h; exact hK
    · split at h
      · simp [Res.state?] at h
      · split at h
        · simp only [Res.state?, Option.some.injEq] at h; subst h; exact hK
        · exact kept_switch M s s1 _ _ hK (fun _ he => by simp at he)
            (fun _ he => by simp at he) h
        · simp only [Res.state?, Option.some.injEq] at h
          subst h
          exact kept_of_same M s _ hK ⟨by simp, fun h0 => label0_set_some _ _ _ h0, rfl⟩
            hK.pc_tid

theorem kept_sync (M : Nat) (s s1 : State) (tid : Int) (hK : Kept M s)
    (h : (uthread_sync M s tid).state? = some s1) : Kept M s1 := by
  unfold uthread_sync at h
  split at h
  · simp [Res.state?] at h
  · simp only [Res.state?, Option.some.injEq] at h; subst h; exact hK
  · split at h
    · simp only [Res.state?, Option.some.injEq] at h; subst h; exact hK
    · exact kept_switch M s s1 _ _ hK (fun _ he => by simp at he)
        (fun _ he => by simp at he) h

theorem kept_timer (M : Nat) (s s1 : State) (hK : Kept M s)
    (h : (_timer_handler M s).state? = some s1) : Kept M s1 := by
  unfold _timer_handler at h
  refine kept_switch M s s1 _ _ hK ?_ ?_ h
  · intro tid he
    split at he <;> simp at he
  · intro tl he
    split at he
    · simp at he
    · rename_i tl0 hpc
      simp only [Cont.in_timer_handler_from.injEq] at he
      rw [← he]
      exact hK.pc_tid tl0 hpc

/-- Every event keeps the invariant. -/
theorem kept_next (M : Nat) (s s1 : State) (e : Event) (hK : Kept M s)
    (h : next M s e = some s1) : Kept M s1 := by
  unfold next at h
  simp only [Option.bind_eq_some] at h
  obtain ⟨r, hr, hs⟩ := h
  have hcall : ∀ r0, call s r0 = some r → r0 = r := by
    intro r0 h0
    unfold call at h0
    split at h0
    · simpa using h0
    · simp at h0
  cases e with
  | spawn =>
    have := hcall _ hr
    subst this
    exact kept_spawn M s s1 hK hs
  | terminate tid =>
    have := hcall _ hr
    subst this
    exact kept_terminate M s s1 tid hK hs
  | block tid =>
    have := hcall _ hr
    subst this
    exact kept_block M s s1 tid hK hs
  | resume tid =>
    have := hcall _ hr
    subst this
    obtain ⟨v, hv⟩ := resume_not_switched M s s1 tid hs
    obtain ⟨h1, h2⟩ := same_resume M s s1 tid v hv
    exact kept_of_same M s s1 hK h1 (by rw [h2]; exact hK.pc_tid)
  | sync tid =>
    have := hcall _ hr
    subst this
    exact kept_sync M s s1 tid hK hs
  | timer =>
    simp only [step, Option.some.injEq] at hr
    subst hr
    exact kept_timer M s s1 hK hs
  | advance =>
    simp only [step, Option.map_eq_some'] at hr
    obtain ⟨tl, htl, hr2⟩ := hr
    subst hr2
    have h0 := hK.pc_tid tl htl
    refine kept_after_front M s s1 tl.tid tl.gen h0 _ hK ?_ hs
    intro s2 p hr3
    exact same_tail_step M s s2 tl p h0 hr3

theorem kept_mainOnly (M : Nat) (hM : 0 < M) (q : Int) (n : Nat) :
    Kept M (mainOnly M q n Cont.unset) := by
  unfold mainOnly
  constructor
  · simp; omega
  · simp [label]
  · simp
  · intro i tid hi
    cases i with
    | zero => simp at hi
    | succ i =>
      simp only [List.getElem?_cons_succ, List.getElem?_replicate] at hi
      split at hi <;> simp at hi
  · intro i tl hi
    cases i with
    | zero => simp at hi
    | succ i =>
      simp only [List.getElem?_cons_succ, List.getElem?_replicate] at hi
      split at hi <;> simp at hi

/-- Every reachable state satisfies the invariant. -/
theorem reachable_kept (M : Nat) (s : State) (hs : Reachable M s) : Kept M s := by
  induction hs with
  | init q s h =>
    obtain ⟨h1, _, _, h3⟩ := init_returns M q s h
    subst h3
    exact kept_mainOnly M h1 q 1
  | step s s1 e _ h ih => exact kept_next M s s1 e ih h

/-! ## Claims -/

/-- C1 fails on the code. With two slots, after `uthread_init(100)`, a spawn
returning 1, a preemption and `uthread_terminate(1)` by thread 1 itself, the
main thread runs, the ready queue is empty and thread 1 will never run again,
but its slot is still occupied and counted: `uthread_spawn` returns -1 with one
live thread. With three slots, when thread 1 is preempted inside
`uthread_terminate(2)` between `thread_list[2] = nullptr` and
`active_threads_num--`, the main thread's `uthread_spawn` returns -1 although
slot 2 is empty and only two slots are occupied. -/
theorem spawn_fails_below_capacity :
    ∃ s s2,
      runFromInit 2 100 [Event.spawn, Event.timer, Event.terminate 1] = some s ∧
      uthread_get_tid s = 0 ∧ s.ready_threads_id = [] ∧
      s.env[1]? = some (Cont.in_terminate 1) ∧
      (label s.thread_list 1).isSome ∧ s.active_threads_num = 2 ∧
      uthread_spawn 2 s = Res.returned s (-1) ∧
      runFromInit 3 100
        [Event.spawn, Event.spawn, Event.timer, Event.sync 2, Event.resume 1, Event.timer,
          Event.timer, Event.terminate 2, Event.advance, Event.advance, Event.advance,
          Event.timer] = some s2 ∧
      uthread_get_tid s2 = 0 ∧
      s2.env[1]? = some (Cont.in_timer_handler_from ⟨2, 0, TailPc.at_decrement⟩) ∧
      s2.thread_list[2]? = some none ∧ occupied s2 = 2 ∧ s2.active_threads_num = 3 ∧
      uthread_spawn 3 s2 = Res.returned s2 (-1) :=
  ⟨_, _, rfl, by decide, by decide, by decide, by decide, by decide, by decide, rfl, by decide,
    by decide, by decide, by decide, by decide, by decide⟩

/-- C2 fails on the code: with four slots, after `uthread_init(100)`, two spawns
(ids 1 and 2), a preemption, `uthread_sync(2)` by thread 1 and another
preemption, thread 1 is suspended inside `uthread_sync(2)` and the dependency map
is still empty; `uthread_terminate(2)` by the main thread returns 0 and leaves
thread 1 BLOCKED and out of the ready queue. -/
theorem terminate_leaves_sync_waiter_blocked :
    ∃ s s1,
      runFromInit 4 100 [Event.spawn, Event.spawn, Event.timer, Event.sync 2, Event.timer]
        = some s ∧
      s.running_thread = 0 ∧ s.env[1]? = some (Cont.in_sync 2 1) ∧
      s.dependencies_dict = [] ∧
      uthread_terminate 4 s 2 = Res.returned s1 0 ∧
      label s1.thread_list 1 = some TState.BLOCKED ∧ 1 ∉ s1.ready_threads_id :=
  ⟨_, _, rfl, by decide, by decide, by decide, rfl, by decide, by decide⟩

/-- C3 fails on the code: with four slots, after `uthread_init(100)`, two spawns,
a preemption and `uthread_sync(2)` by thread 1, thread 1 is suspended inside
`uthread_sync(2)` with its sync flag still clear; `uthread_resume(1)` by thread 2
returns 0 and makes thread 1 READY at the back of the ready queue. -/
theorem resume_releases_sync_waiter :
    ∃ s s1,
      runFromInit 4 100 [Event.spawn, Event.spawn, Event.timer, Event.sync 2] = some s ∧
      s.running_thread = 2 ∧ s.env[1]? = some (Cont.in_sync 2 1) ∧
      label s.thread_list 1 = some TState.BLOCKED ∧
      (s.deref 1).map Thread._is_synced = some false ∧
      uthread_resume 4 s 1 = Res.returned s1 0 ∧
      label s1.thread_list 1 = some TState.READY ∧ s1.ready_threads_id = [0, 1] :=
  ⟨_, _, rfl, by decide, by decide, by decide, by decide, rfl, by decide, by decide⟩

/-- C4 fails on the code: with four slots, after `uthread_init(100)`, one spawn,
a preemption and `uthread_terminate(1)` by thread 1 itself, the main thread runs
and the control blocks in slots 0 and 1 both have state RUNNING. -/
theorem two_running_after_self_terminate :
    ∃ s,
      runFromInit 4 100 [Event.spawn, Event.timer, Event.terminate 1] = some s ∧
      uthread_get_tid s = 0 ∧
      label s.thread_list 0 = some TState.RUNNING ∧
      label s.thread_list 1 = some TState.RUNNING :=
  ⟨_, rfl, by decide, by decide, by decide⟩

/-- C5 fails on the code. With four slots: thread 1 becomes a waiter of thread
2 (`uthread_sync(2)`, released by `uthread_resume(1)`, recorded when it runs
again) and calls `uthread_terminate(2)`; the nested `uthread_resume(1)` of the
release loop unblocks the timer signal and thread 1 is preempted inside the
call. The main thread calls `uthread_block(2)` and `uthread_resume(2)`, which
puts 2 back in the ready queue, and thread 1 then finishes its call. The ready
queue is `[2, 0]` while slot 2 is empty, and the next `_timer_handler`
dereferences the null `thread_list[2]`. -/
theorem queued_id_names_empty_slot :
    ∃ s,
      runFromInit 4 100
        [Event.spawn, Event.spawn, Event.timer, Event.sync 2, Event.resume 1, Event.timer,
          Event.timer, Event.terminate 2, Event.timer, Event.block 2, Event.resume 2,
          Event.timer, Event.advance, Event.advance, Event.advance, Event.advance] = some s ∧
      uthread_get_tid s = 1 ∧ s.pc = none ∧
      s.ready_threads_id = [2, 0] ∧ s.thread_list[2]? = some none ∧
      label s.thread_list 2 = none ∧
      _timer_handler 4 s = Res.undefined :=
  ⟨_, rfl, by decide, by decide, by decide, by decide, by decide, by decide⟩

/-- C6 fails on the code: with four slots, after `uthread_init(100)`, a spawn
returning 1, a preemption and `uthread_terminate(1)` by thread 1 itself, slot 1
is still occupied, the live count is still 2 and `uthread_get_quantums(1)`
returns 1 instead of -1. -/
theorem self_terminate_keeps_slot :
    ∃ s,
      (uthread_spawn 4 (mainOnly 4 100 1 Cont.unset)).value? = some 1 ∧
      runFromInit 4 100 [Event.spawn, Event.timer, Event.terminate 1] = some s ∧
      (label s.thread_list 1).isSome ∧ s.active_threads_num = 2 ∧
      uthread_get_quantums 4 s 1 = some 1 :=
  ⟨_, by decide, rfl, by decide, by decide, by decide⟩

/-- C7 fails on the code: with four slots, after `uthread_init(100)`, two spawns,
a preemption and `uthread_terminate(1)` by thread 1 itself, thread 2 runs; its
call `uthread_sync(1)` does not return -1 but switches to the main thread,
leaving thread 2 BLOCKED. -/
theorem sync_on_self_terminated_blocks :
    ∃ s s1,
      runFromInit 4 100 [Event.spawn, Event.spawn, Event.timer, Event.terminate 1] = some s ∧
      uthread_get_tid s = 2 ∧
      uthread_sync 4 s 1 = Res.switched s1 ∧
      uthread_get_tid s1 = 0 ∧ label s1.thread_list 2 = some TState.BLOCKED :=
  ⟨_, _, rfl, by decide, rfl, by decide, by decide⟩

/-- C8 fails as stated: with four slots, after `uthread_init(100)`, three spawns
(A = 1, B = 2, C = 3) and four preemptions, the running thread is the main
thread 0, not A. -/
theorem round_robin_period_three_fails :
    ∃ s,
      runFromInit 4 100
        [Event.spawn, Event.spawn, Event.spawn,
          Event.timer, Event.timer, Event.timer, Event.timer] = some s ∧
      uthread_get_tid s = 0 ∧ uthread_get_tid s ≠ 1 :=
  ⟨_, rfl, by decide, by decide⟩

/-- C8, amended: after `uthread_init(q)` with `0 < q ≤ 999999` (a quantum the
timer accepts) and at least four slots, the three spawns return 1, 2 and 3, and
when only timer preemptions follow, the running thread after the `k + 1`-th
preemption is the entry `k mod 4` of 1, 2, 3, 0: the spawned threads in spawn
order, then the main thread, with period 4. -/
theorem round_robin_period_four (M : Nat) (q : Int) (k : Nat) (hM : 4 ≤ M) (hq : 0 < q)
    (hq2 : q ≤ 999999) :
    ∃ s0 sA sB sC s,
      uthread_init (State.initial M) q = Res.returned s0 0 ∧
      uthread_spawn M s0 = Res.returned sA 1 ∧
      uthread_spawn M sA = Res.returned sB 2 ∧
      uthread_spawn M sB = Res.returned sC 3 ∧
      run M sC (List.replicate (k + 1) Event.timer) = some s ∧
      uthread_get_tid s = ([1, 2, 3, 0] : List Int).getD (k % 4) 0 := by
  obtain ⟨n, rfl⟩ : ∃ n, M = n + 4 := ⟨M - 4, by omega⟩
  obtain ⟨h1, h2, h3⟩ := spawn_three n q
  obtain ⟨s, hs, hrr⟩ := run_timers_RR (n + 4) (k + 1) _ _ (RR_three n q ⟨by omega, hq2⟩)
  refine ⟨_, _, _, _, s, init_eq (n + 4) (by omega) q hq hq2, h1, h2, h3, hs, ?_⟩
  obtain ⟨r, qq, hl, hr, _⟩ := hrr
  rw [rotate_head k] at hl
  simp only [List.cons.injEq] at hl
  unfold uthread_get_tid
  rw [hr, ← hl.1]
  have h2 : k % 4 < 4 := Nat.mod_lt _ (by norm_num)
  generalize k % 4 = m at h2
  interval_cases m <;> decide

/-- C8, amended, at a concrete input: 100 slots, quantum 100, sixth preemption. -/
theorem round_robin_period_four_witness :
    (4 ≤ 100 ∧ (0 : Int) < 100 ∧ (100 : Int) ≤ 999999) ∧
      ∃ s0 sA sB sC s,
        uthread_init (State.initial 100) 100 = Res.returned s0 0 ∧
        uthread_spawn 100 s0 = Res.returned sA 1 ∧
        uthread_spawn 100 sA = Res.returned sB 2 ∧
        uthread_spawn 100 sB = Res.returned sC 3 ∧
        run 100 sC (List.replicate (5 + 1) Event.timer) = some s ∧
        uthread_get_tid s = ([1, 2, 3, 0] : List Int).getD (5 % 4) 0 :=
  ⟨⟨by decide, by decide, by decide⟩,
    round_robin_period_four 100 100 5 (by decide) (by decide) (by decide)⟩

/-- C9 fails as stated: with one slot and `uthread_init(1)`, once `2 ^ 31` quanta
have started (the initial one and `2 ^ 31 - 1` preemptions),
`uthread_get_total_quantums()` is `-2 ^ 31`, not `2 ^ 31`. -/
theorem total_quantums_wraps :
    ∃ s,
      runFromInit 1 1 (List.replicate (2 ^ 31 - 1) Event.timer) = some s ∧
      uthread_get_total_quantums s = -2 ^ 31 := by
  refine ⟨mainOnly 1 1 ((1 + (2 ^ 31 - 1)) % 2 ^ 32)
    (if 2 ^ 31 - 1 = 0 then Cont.unset else Cont.in_timer_handler), ?_, ?_⟩
  · rw [runFromInit_eq 1 (by decide) 1 (by decide) (by decide)]
    exact run_timers_mainOnly 1 1 (by decide) (2 ^ 31 - 1) 1 Cont.unset (by norm_num)
  · simp only [uthread_get_total_quantums, mainOnly]
    decide

/-- C9, amended: for every `q` with `0 < q ≤ 999999` (a quantum the timer
accepts), at least one slot and every `N` with `1 ≤ N < 2 ^ 31`, after
`uthread_init(q)` on the initial state and `N - 1` timer preemptions with the
main thread alone, `uthread_get_total_quantums()` and `uthread_get_quantums(0)`
both equal `N`. -/
theorem quantums_main_only (M : Nat) (q : Int) (N : Nat) (hM : 0 < M) (hq : 0 < q)
    (hq2 : q ≤ 999999) (hN1 : 1 ≤ N) (hN : N < 2 ^ 31) :
    ∃ s0 s,
      uthread_init (State.initial M) q = Res.returned s0 0 ∧
      run M s0 (List.replicate (N - 1) Event.timer) = some s ∧
      uthread_get_total_quantums s = (N : Int) ∧
      uthread_get_quantums M s 0 = some (N : Int) := by
  have hrun := run_timers_mainOnly M q ⟨by omega, hq2⟩ (N - 1) 1 Cont.unset (by norm_num)
  have hN2 : (1 + (N - 1)) % 2 ^ 32 = N := by
    rw [Nat.mod_eq_of_lt (by omega)]
    omega
  rw [hN2] at hrun
  refine ⟨_, _, init_eq M hM q hq hq2, hrun, ?_, ?_⟩
  · simp only [uthread_get_total_quantums, mainOnly]
    exact toInt32_of_lt N hN
  · obtain ⟨n, rfl⟩ : ∃ n, M = n + 1 := ⟨M - 1, by omega⟩
    have hv : _is_id_valid (n + 1)
        (mainOnly (n + 1) q N (if N - 1 = 0 then Cont.unset else Cont.in_timer_handler)) 0
          = some true := by
      unfold _is_id_valid
      rw [if_neg (by omega)]
      simp [mainOnly]
    unfold uthread_get_quantums
    rw [hv]
    simp only [mainOnly, State.deref, Int.toNat_zero, List.getElem?_cons_zero, Option.join]
    rw [← toInt32_of_lt N hN]
    rfl

/-- C9, amended, at a concrete input: 100 slots, quantum 100, seven quanta. -/
theorem quantums_main_only_witness :
    (0 < 100 ∧ (0 : Int) < 100 ∧ (100 : Int) ≤ 999999 ∧ 1 ≤ 7 ∧ 7 < 2 ^ 31) ∧
      ∃ s0 s,
        uthread_init (State.initial 100) 100 = Res.returned s0 0 ∧
        run 100 s0 (List.replicate (7 - 1) Event.timer) = some s ∧
        uthread_get_total_quantums s = ((7 : Nat) : Int) ∧
        uthread_get_quantums 100 s 0 = some ((7 : Nat) : Int) :=
  ⟨⟨by decide, by decide, by decide, by decide, by norm_num⟩,
    quantums_main_only 100 100 7 (by decide) (by decide) (by decide) (by decide) (by norm_num)⟩

/-- C10: when the thread table has `MAX_THREAD_NUM` slots, `_is_id_valid` never
reads it out of bounds, and for a `tid` that is negative, at least
`MAX_THREAD_NUM`, or names an empty slot, each of `uthread_terminate`,
`uthread_block`, `uthread_resume`, `uthread_sync` and `uthread_get_quantums`
returns -1 and leaves the whole scheduler state unchanged. -/
theorem invalid_id_rejected (M : Nat) (s : State) (tid : Int)
    (hlen : s.thread_list.length = M) :
    (∀ t : Int, (_is_id_valid M s t).isSome) ∧
      ((tid < 0 ∨ (M : Int) ≤ tid ∨ s.thread_list[tid.toNat]? = some none) →
        uthread_terminate M s tid = Res.returned s (-1) ∧
        uthread_block M s tid = Res.returned s (-1) ∧
        uthread_resume M s tid = Res.returned s (-1) ∧
        uthread_sync M s tid = Res.returned s (-1) ∧
        uthread_get_quantums M s tid = some (-1)) := by
  constructor
  · intro t
    unfold _is_id_valid
    split
    · simp
    · rename_i h
      push_neg at h
      have hlt : t.toNat < s.thread_list.length := by omega
      cases hg : s.thread_list[t.toNat]? with
      | none =>
        rw [List.getElem?_eq_none_iff] at hg
        omega
      | some o => cases o <;> simp
  · intro h
    have hv : _is_id_valid M s tid = some false := by
      unfold _is_id_valid
      split
      · rfl
      · rename_i h2
        push_neg at h2
        rcases h with h | h | h
        · omega
        · omega
        · rw [h]
    simp [uthread_terminate, uthread_block, uthread_resume, uthread_sync, uthread_get_quantums,
      hv]

/-- C10 at a concrete state: id 7 with four slots, right after initialisation. -/
theorem invalid_id_rejected_witness :
    (mainOnly 4 100 1 Cont.unset).thread_list.length = 4 ∧
      uthread_terminate 4 (mainOnly 4 100 1 Cont.unset) 7 =
        Res.returned (mainOnly 4 100 1 Cont.unset) (-1) :=
  ⟨by decide,
    ((invalid_id_rejected 4 (mainOnly 4 100 1 Cont.unset) 7 (by decide)).2
      (Or.inr (Or.inl (by decide)))).1⟩

/-- C11: for every valid `tid`, `uthread_resume(tid)` returns 0; when thread
`tid` is BLOCKED with its sync flag clear, its state becomes READY and `tid` is
appended at the back of the ready queue, nothing else changing; in every other
case (READY, RUNNING, or BLOCKED with the sync flag set) the whole state is
unchanged. -/
theorem resume_valid_id (M : Nat) (s : State) (tid : Int)
    (hv : _is_id_valid M s tid = some true) :
    ∃ t, s.deref tid.toNat = some t ∧
      (t._state = TState.BLOCKED ∧ t._is_synced = false →
        uthread_resume M s tid =
          Res.returned
            { s with
              thread_list := s.thread_list.set tid.toNat (some { t with _state := TState.READY })
              ready_threads_id := s.ready_threads_id ++ [tid.toNat] } 0) ∧
      (¬ (t._state = TState.BLOCKED ∧ t._is_synced = false) →
        uthread_resume M s tid = Res.returned s 0) := by
  obtain ⟨t, ht⟩ := is_id_valid_deref M s tid hv
  refine ⟨t, ht, ?_, ?_⟩
  · intro h
    unfold uthread_resume
    simp only [hv, ht]
    rw [if_pos h]
    rfl
  · intro h
    unfold uthread_resume
    simp only [hv, ht]
    rw [if_neg h]

/-- C11 at a concrete state: four slots, thread 1 blocked by `uthread_block(1)`. -/
theorem resume_valid_id_witness :
    ∃ s, runFromInit 4 100 [Event.spawn, Event.block 1] = some s ∧
      _is_id_valid 4 s 1 = some true ∧
      ∃ t, s.deref (1 : Int).toNat = some t ∧
        (t._state = TState.BLOCKED ∧ t._is_synced = false →
          uthread_resume 4 s 1 =
            Res.returned
              { s with
                thread_list :=
                  s.thread_list.set (1 : Int).toNat (some { t with _state := TState.READY })
                ready_threads_id := s.ready_threads_id ++ [(1 : Int).toNat] } 0) ∧
        (¬ (t._state = TState.BLOCKED ∧ t._is_synced = false) →
          uthread_resume 4 s 1 = Res.returned s 0) :=
  ⟨_, rfl, by decide, resume_valid_id 4 _ 1 (by decide)⟩

/-- C12: for every state and every valid `tid ≠ 0`, `uthread_block(tid)` on a
BLOCKED thread returns 0 and leaves the state unchanged; on a READY thread it
returns 0 with a state on which a second `uthread_block(tid)` returns 0 and
changes nothing. -/
theorem block_idempotent (M : Nat) (s : State) (tid : Int)
    (hv : _is_id_valid M s tid = some true) (h0 : tid ≠ 0) :
    ∃ t, s.deref tid.toNat = some t ∧
      (t._state = TState.BLOCKED → uthread_block M s tid = Res.returned s 0) ∧
      (t._state = TState.READY →
        ∃ s1, uthread_block M s tid = Res.returned s1 0 ∧
          uthread_block M s1 tid = Res.returned s1 0) := by
  obtain ⟨hge, hle, t, ht0⟩ := is_id_valid_true M s tid hv
  have ht := (deref_eq_some s _ t).2 ht0
  have hlt := lt_length_of_getElem? _ _ _ ht0
  refine ⟨t, ht, ?_, ?_⟩
  · intro h
    unfold uthread_block
    simp only [hv, ht, if_neg h0, h]
  · intro h
    refine ⟨{ s with
        ready_threads_id := s.ready_threads_id.filter (fun i => !(i == tid.toNat))
        thread_list := s.thread_list.set tid.toNat (some (t.setState TState.BLOCKED)) }, ?_, ?_⟩
    · unfold uthread_block
      simp only [hv, ht, if_neg h0, h]
    · have hv1 : _is_id_valid M
          { s with
            ready_threads_id := s.ready_threads_id.filter (fun i => !(i == tid.toNat))
            thread_list := s.thread_list.set tid.toNat (some (t.setState TState.BLOCKED)) }
          tid = some true := by
        unfold _is_id_valid
        rw [if_neg (by omega)]
        simp [List.getElem?_set_self hlt]
      unfold uthread_block
      simp only [hv1, if_neg h0]
      simp only [State.deref, List.getElem?_set_self hlt, Option.join,
        Option.bind_some, id, Thread.setState]
      rfl

/-- C12 at a concrete state: four slots, thread 1 READY after its spawn. -/
theorem block_idempotent_witness :
    ∃ s, runFromInit 4 100 [Event.spawn] = some s ∧
      _is_id_valid 4 s 1 = some true ∧ (1 : Int) ≠ 0 ∧
      ∃ t, s.deref (1 : Int).toNat = some t ∧
        (t._state = TState.BLOCKED → uthread_block 4 s 1 = Res.returned s 0) ∧
        (t._state = TState.READY →
          ∃ s1, uthread_block 4 s 1 = Res.returned s1 0 ∧
            uthread_block 4 s1 1 = Res.returned s1 0) :=
  ⟨_, rfl, by decide, by decide, block_idempotent 4 _ 1 (by decide) (by decide)⟩

/-- C13: in every library state whose thread table has `MAX_THREAD_NUM` slots
and whose `running_thread` is an `unsigned int` (the initial state included),
`uthread_block(0)`, `uthread_sync(0)` and `uthread_sync(uthread_get_tid())` each
return -1 and leave the whole state unchanged. -/
theorem block_main_sync_main_sync_self_rejected (M : Nat) (s : State)
    (hlen : s.thread_list.length = M) (hr : s.running_thread < 2 ^ 32) :
    uthread_block M s 0 = Res.returned s (-1) ∧
      uthread_sync M s 0 = Res.returned s (-1) ∧
      uthread_sync M s (uthread_get_tid s) = Res.returned s (-1) := by
  refine ⟨?_, ?_, ?_⟩
  · unfold uthread_block
    cases hv : _is_id_valid M s 0 with
    | none => exact absurd hv (is_id_valid_ne_none M s hlen 0)
    | some b => cases b <;> simp
  · unfold uthread_sync
    cases hv : _is_id_valid M s 0 with
    | none => exact absurd hv (is_id_valid_ne_none M s hlen 0)
    | some b => cases b <;> simp
  · unfold uthread_sync
    cases hv : _is_id_valid M s (uthread_get_tid s) with
    | none => exact absurd hv (is_id_valid_ne_none M s hlen _)
    | some b =>
      cases b with
      | false => rfl
      | true =>
        obtain ⟨hge, _, _⟩ := is_id_valid_true M s _ hv
        have hself : (uthread_get_tid s).toNat = s.running_thread := by
          unfold uthread_get_tid toInt32 at hge ⊢
          rw [Nat.mod_eq_of_lt hr] at hge ⊢
          split
          · simp
          · rename_i hbig
            rw [if_neg hbig] at hge
            omega
        simp only [hself, true_or, if_true]

/-- C13 at a state where the ids pass `_is_id_valid`, so that the guards
`tid == 0` and `tid == running_thread` decide: four slots, after
`uthread_init(100)`, a spawn and a preemption, thread 1 is running, ids 0 and 1
are both valid, and the three calls return -1 without changing the state. -/
theorem block_main_sync_main_sync_self_rejected_witness :
    ∃ s, runFromInit 4 100 [Event.spawn, Event.timer] = some s ∧
      _is_id_valid 4 s 0 = some true ∧
      uthread_get_tid s = 1 ∧ _is_id_valid 4 s (uthread_get_tid s) = some true ∧
      s.thread_list.length = 4 ∧ s.running_thread < 2 ^ 32 ∧
      uthread_block 4 s 0 = Res.returned s (-1) ∧
      uthread_sync 4 s 0 = Res.returned s (-1) ∧
      uthread_sync 4 s (uthread_get_tid s) = Res.returned s (-1) :=
  ⟨_, rfl, by decide, by decide, by decide, by decide, by decide,
    block_main_sync_main_sync_self_rejected 4 _ (by decide) (by decide)⟩

/-- C14: in every state reachable after one successful `uthread_init`, by any
calls, preemptions and steps of a preempted `uthread_terminate`, every occupied
thread-table slot has an index below `MAX_THREAD_NUM`, slot 0 is occupied and at
most `MAX_THREAD_NUM` slots are occupied; `uthread_terminate(0)` leaves no
later library state: it passes the validity check and runs `_terminate_all`,
after which the process does not go on. -/
theorem occupied_slots_bounded (M : Nat) (s : State) (hs : Reachable M s) :
    (∀ (i : Nat) (t : Thread), s.thread_list[i]? = some (some t) → i < M) ∧
      (∃ t, s.thread_list[0]? = some (some t)) ∧
      occupied s ≤ M ∧
      _is_id_valid M s 0 = some true ∧
      uthread_terminate M s 0 = _terminate_all s ∧
      (uthread_terminate M s 0).state? = none := by
  have hK := reachable_kept M s hs
  have hmain := (label_isSome _ _).1 hK.main
  have hterm : _is_id_valid M s 0 = some true ∧ uthread_terminate M s 0 = _terminate_all s := by
    obtain ⟨t, ht⟩ := hmain
    have hpos : 0 < M := by
      have := lt_length_of_getElem? _ _ _ ht
      rw [hK.len_list] at this
      exact this
    have hv : _is_id_valid M s 0 = some true := by
      unfold _is_id_valid
      rw [if_neg (by omega)]
      simp [ht]
    refine ⟨hv, ?_⟩
    unfold uthread_terminate
    simp [hv]
  refine ⟨?_, hmain, ?_, hterm.1, hterm.2, ?_⟩
  · intro i t hi
    have := lt_length_of_getElem? _ _ _ hi
    rw [hK.len_list] at this
    exact this
  · have : occupied s ≤ s.thread_list.length := by
      unfold occupied
      exact List.countP_le_length _
    rw [hK.len_list] at this
    exact this
  · rw [hterm.2]
    rfl

/-- C14 at a concrete state: four slots, after two spawns and the termination
of thread 1. -/
theorem occupied_slots_bounded_witness :
    ∃ s, runFromInit 4 100 [Event.spawn, Event.spawn, Event.terminate 1] = some s ∧
      (∀ (i : Nat) (t : Thread), s.thread_list[i]? = some (some t) → i < 4) ∧
      (∃ t, s.thread_list[0]? = some (some t)) ∧
      occupied s ≤ 4 ∧
      _is_id_valid 4 s 0 = some true ∧
      uthread_terminate 4 s 0 = _terminate_all s ∧
      (uthread_terminate 4 s 0).state? = none :=
  ⟨_, rfl, occupied_slots_bounded 4 _
    (reachable_runFromInit 4 100 [Event.spawn, Event.spawn, Event.terminate 1] _ rfl)⟩

/-- C17 fails as stated: with one slot, `uthread_init(1)` and `2 ^ 32 - 2`
preemptions, the total quantum count and the quantum count of the main thread are
both `2 ^ 32 - 1`; the next `_switch_threads` with READY makes both 0, so neither
increases by 1. -/
theorem switch_quantum_counters_wrap :
    ∃ s s1,
      runFromInit 1 1 (List.replicate (2 ^ 32 - 2) Event.timer) = some s ∧
      _switch_threads 1 s NextState.READY Cont.in_timer_handler = Res.switched s1 ∧
      s.quantums_num = 2 ^ 32 - 1 ∧ s1.quantums_num = 0 ∧
      quanta s.thread_list 0 = some (2 ^ 32 - 1) ∧ quanta s1.thread_list 0 = some 0 ∧
      s1.quantums_num ≠ s.quantums_num + 1 := by
  refine ⟨mainOnly 1 1 ((1 + (2 ^ 32 - 2)) % 2 ^ 32)
      (if 2 ^ 32 - 2 = 0 then Cont.unset else Cont.in_timer_handler),
    mainOnly 1 1 (inc32 ((1 + (2 ^ 32 - 2)) % 2 ^ 32)) Cont.in_timer_handler, ?_, ?_, ?_, ?_, ?_,
    ?_, ?_⟩
  · rw [runFromInit_eq 1 (by decide) 1 (by decide) (by decide)]
    exact run_timers_mainOnly 1 1 (by decide) (2 ^ 32 - 2) 1 Cont.unset (by norm_num)
  · exact timer_mainOnly 1 1 (by decide) _ _
  · simp only [mainOnly]; norm_num
  · simp only [mainOnly, inc32]; norm_num
  · simp only [mainOnly, quanta]; norm_num
  · simp only [mainOnly, quanta, inc32]; norm_num
  · simp only [mainOnly, inc32]; norm_num

/-- C17, amended: take a state in which the running thread `c` exists and has a
context buffer, the timer can be armed (`0 ≤ quantum_usec ≤ 999999`), and a
thread `nxt` that exists and whose saved context, once `c` has saved its own, is
one from which `nxt` simply goes on (filled, not the rest of a
`uthread_terminate` call, and if the rest of a `uthread_sync` call then its own).
When `nxt :: rest` is `q ++ [c]` for the ready queue `q`, `_switch_threads` with
READY makes `nxt` the running thread and `rest` the ready queue, and leaves `c`
READY unless `c` is `nxt`. When `nxt :: rest` is `q`, `_switch_threads` with
BLOCKED makes `nxt` the running thread and `rest` the ready queue, and leaves `c`
BLOCKED unless `c` is `nxt`. In both cases the new running thread is RUNNING,
its quantum count and the total quantum count each go from `n` to
`(n + 1) mod 2 ^ 32`, which is `n + 1` while `n + 1 < 2 ^ 32`, and the quantum
count of every other thread is unchanged. -/
theorem switch_threads_fifo (M : Nat) (s : State) (k : Cont) (nxt : Nat) (rest : List Nat)
    (t : Thread) (c : Cont)
    (ht : s.thread_list[s.running_thread]? = some (some t))
    (hre : s.running_thread < s.env.length)
    (husec : 0 ≤ s.quantum_usec ∧ s.quantum_usec ≤ 999999)
    (hnxt : (label s.thread_list nxt).isSome)
    (hc : (s.env.set s.running_thread k)[nxt]? = some c) (hb : Benign nxt c) :
    (s.ready_threads_id ++ [s.running_thread] = nxt :: rest →
        ∃ s1 n,
          _switch_threads M s NextState.READY k = Res.switched s1 ∧
          s1.running_thread = nxt ∧ s1.ready_threads_id = rest ∧
          s1.quantums_num = inc32 s.quantums_num ∧
          label s1.thread_list nxt = some TState.RUNNING ∧
          (s.running_thread ≠ nxt →
            label s1.thread_list s.running_thread = some TState.READY) ∧
          quanta s.thread_list nxt = some n ∧
          quanta s1.thread_list nxt = some (inc32 n) ∧
          (∀ j, j ≠ nxt → quanta s1.thread_list j = quanta s.thread_list j)) ∧
      (s.ready_threads_id = nxt :: rest →
        ∃ s1 n,
          _switch_threads M s NextState.BLOCKED k = Res.switched s1 ∧
          s1.running_thread = nxt ∧ s1.ready_threads_id = rest ∧
          s1.quantums_num = inc32 s.quantums_num ∧
          label s1.thread_list nxt = some TState.RUNNING ∧
          (s.running_thread ≠ nxt →
            label s1.thread_list s.running_thread = some TState.BLOCKED) ∧
          quanta s.thread_list nxt = some n ∧
          quanta s1.thread_list nxt = some (inc32 n) ∧
          (∀ j, j ≠ nxt → quanta s1.thread_list j = quanta s.thread_list j)) ∧
      (∀ n, n + 1 < 2 ^ 32 → inc32 n = n + 1) := by
  refine ⟨?_, ?_, inc32_of_lt⟩
  · intro hq
    obtain ⟨s1, n, h1, h2, h3, h4, h5, h6, h7, h8, h9⟩ :=
      relabel_dispatch M s TState.READY k nxt rest t c ht husec hnxt hc hb
    refine ⟨s1, n, ?_, h2, h3, h4, h5, h6, h7, h8, h9⟩
    rw [switch_threads_eq, if_pos hre]
    have hmark : mark { s with env := s.env.set s.running_thread k } NextState.READY =
        some { s with
          env := s.env.set s.running_thread k
          ready_threads_id := nxt :: rest
          thread_list := s.thread_list.set s.running_thread (some (t.setState TState.READY)) }
        := by
      simp only [mark, State.modifyThread, State.deref, ht, hq]
      rfl
    rw [hmark]
    exact h1
  · intro hq
    obtain ⟨s1, n, h1, h2, h3, h4, h5, h6, h7, h8, h9⟩ :=
      relabel_dispatch M s TState.BLOCKED k nxt rest t c ht husec hnxt hc hb
    refine ⟨s1, n, ?_, h2, h3, h4, h5, h6, h7, h8, h9⟩
    rw [switch_threads_eq, if_pos hre]
    have hmark : mark { s with env := s.env.set s.running_thread k } NextState.BLOCKED =
        some { s with
          env := s.env.set s.running_thread k
          ready_threads_id := nxt :: rest
          thread_list := s.thread_list.set s.running_thread (some (t.setState TState.BLOCKED)) }
        := by
      simp only [mark, State.modifyThread, State.deref, ht, ← hq]
      rfl
    rw [hmark]
    exact h1

/-- C17, amended, at a concrete state: four slots, after two spawns the running
thread is 0, the queue is `[1, 2]`, threads 0 and 1 exist, the quantum is 100
and thread 1 has not run yet. The timer's switch (READY) runs thread 1 and
leaves the queue `[2, 0]`; a switch with BLOCKED runs thread 1 and leaves the
queue `[2]`. -/
theorem switch_threads_fifo_witness :
    ∃ s, runFromInit 4 100 [Event.spawn, Event.spawn] = some s ∧
      s.running_thread = 0 ∧ s.ready_threads_id = [1, 2] ∧
      (label s.thread_list 0).isSome ∧ (label s.thread_list 1).isSome ∧
      s.quantum_usec = 100 ∧ s.env[1]? = some Cont.entry ∧
      (∃ s1 n,
        _switch_threads 4 s NextState.READY Cont.in_timer_handler = Res.switched s1 ∧
        s1.running_thread = 1 ∧ s1.ready_threads_id = [2, 0] ∧
        s1.quantums_num = inc32 s.quantums_num ∧
        label s1.thread_list 1 = some TState.RUNNING ∧
        (s.running_thread ≠ 1 → label s1.thread_list s.running_thread = some TState.READY) ∧
        quanta s.thread_list 1 = some n ∧
        quanta s1.thread_list 1 = some (inc32 n) ∧
        (∀ j, j ≠ 1 → quanta s1.thread_list j = quanta s.thread_list j)) ∧
      (∃ s1 n,
        _switch_threads 4 s NextState.BLOCKED Cont.in_timer_handler = Res.switched s1 ∧
        s1.running_thread = 1 ∧ s1.ready_threads_id = [2] ∧
        s1.quantums_num = inc32 s.quantums_num ∧
        label s1.thread_list 1 = some TState.RUNNING ∧
        (s.running_thread ≠ 1 → label s1.thread_list s.running_thread = some TState.BLOCKED) ∧
        quanta s.thread_list 1 = some n ∧
        quanta s1.thread_list 1 = some (inc32 n) ∧
        (∀ j, j ≠ 1 → quanta s1.thread_list j = quanta s.thread_list j)) :=
  ⟨_, rfl, by decide, by decide, by decide, by decide, by decide, by decide,
    (switch_threads_fifo 4 _ Cont.in_timer_handler 1 [2, 0] (Thread.new TState.RUNNING 0).raise_quantums
      Cont.entry (by decide) (by decide) (by decide) (by decide) (by decide)
      ⟨by simp, by simp, by simp⟩).1 (by decide),
    (switch_threads_fifo 4 _ Cont.in_timer_handler 1 [2] (Thread.new TState.RUNNING 0).raise_quantums
      Cont.entry (by decide) (by decide) (by decide) (by decide) (by decide)
      ⟨by simp, by simp, by simp⟩).2.1 (by decide)⟩

/-- C18 fails on the code. With three slots, thread 1 becomes a waiter of thread
2 and calls `uthread_terminate(2)`; the nested `uthread_resume(1)` unblocks the
timer signal, and thread 1 is preempted just before `delete thread_list[2]`.
The main thread terminates thread 2 as well, and thread 1 then finishes its
call: the count was decremented twice, `active_threads_num` is 1 with slots 0
and 1 occupied. After one more spawn all three slots are occupied and the count
is 2, so the next `uthread_spawn` passes its capacity check, its search loop
ends with `id = 3 = MAX_THREAD_NUM`, and `thread_list[3]` is indexed out of
bounds. -/
theorem spawn_loop_runs_off_the_table :
    ∃ s0 s,
      runFromInit 3 100
        [Event.spawn, Event.spawn, Event.timer, Event.sync 2, Event.resume 1, Event.timer,
          Event.timer, Event.terminate 2, Event.advance, Event.advance, Event.timer,
          Event.terminate 2, Event.timer, Event.advance, Event.advance] = some s0 ∧
      s0.pc = none ∧ s0.active_threads_num = 1 ∧ occupied s0 = 2 ∧
      uthread_spawn 3 s0 = Res.returned s 2 ∧
      s.active_threads_num = 2 ∧ occupied s = 3 ∧
      spawn_loop 3 s 2 1 = some (s, 3) ∧
      uthread_spawn 3 s = Res.undefined :=
  ⟨_, _, rfl, by decide, by decide, by decide, rfl, by decide, by decide, by decide, by decide⟩

/-- C19 fails on the code: with four slots, after `uthread_init(100)`, a spawn
and `uthread_sync(1)` by the main thread, thread 1 runs and the ready queue is
empty; `uthread_terminate(1)` and `uthread_block(1)` by thread 1 both reach
`_switch_threads`, which takes `front()` of the empty queue. -/
theorem switch_on_empty_ready_queue :
    ∃ s, runFromInit 4 100 [Event.spawn, Event.sync 1] = some s ∧
      uthread_get_tid s = 1 ∧ s.ready_threads_id = [] ∧
      label s.thread_list 1 = some TState.RUNNING ∧
      uthread_terminate 4 s 1 = Res.undefined ∧
      uthread_block 4 s 1 = Res.undefined :=
  ⟨_, rfl, by decide, by decide, by decide, by decide, by decide⟩

/-- C20 fails on the code: with four slots, thread 1 calls `uthread_sync(2)`, is
resumed by `uthread_resume(1)` and records itself as a waiter of 2 when it runs
again; thread 2 then terminates thread 1. The dependency map still holds waiter
1 for key 2 although slot 1 is empty, and `uthread_terminate(2)` dereferences
the null `thread_list[1]`. When thread 1 is spawned anew in between,
`uthread_terminate(2)` sets the sync flag of the new thread, which never called
`uthread_sync`. -/
theorem stale_waiter_dereferenced :
    ∃ s s2,
      runFromInit 4 100
        [Event.spawn, Event.spawn, Event.timer, Event.sync 2, Event.resume 1, Event.timer,
          Event.timer, Event.timer, Event.terminate 1, Event.timer] = some s ∧
      uthread_get_tid s = 0 ∧
      s.dependencies_dict = [(2, [1])] ∧ s.thread_list[1]? = some none ∧
      uthread_terminate 4 s 2 = Res.undefined ∧
      runFromInit 4 100
        [Event.spawn, Event.spawn, Event.timer, Event.sync 2, Event.resume 1, Event.timer,
          Event.timer, Event.timer, Event.terminate 1, Event.spawn, Event.timer,
          Event.terminate 2] = some s2 ∧
      (s2.deref 1).map Thread._is_synced = some true :=
  ⟨_, _, rfl, by decide, by decide, by decide, by decide, rfl, by decide⟩

end Uthreads
